import Mathlib

/-!
Verification of the `endgame` grid library (crates `endgame_direction` and
`endgame_grid`).  The Rust source is shallowly embedded: the `i32` components
of coordinates are modelled as `ℤ` (no arithmetic in the library overflows a
mathematical integer before being stored back), Rust `rem_euclid` is `Int.emod` (written `%`)
and Rust truncating division is used only on even numerators, where it
agrees with `Int.ediv` (written `/`; noted at each use).  Iterators whose Rust form is an
unbounded `loop` are embedded with an explicit fuel argument and return
`Option`, `none` meaning the fuel was insufficient; theorems show the fuel
chosen by the wrappers always suffices.
-/

/-! # The `Direction` crate (`endgame_direction/src/lib.rs`) -/

/-- Embedding of `Direction`: the eight compass directions, ordered
counter-clockwise from East exactly as the Rust `enum` discriminants 0..7. -/
inductive Direction : Type
  | East
  | NorthEast
  | North
  | NorthWest
  | West
  | SouthWest
  | South
  | SouthEast
  deriving DecidableEq, Repr

namespace Direction

/-- The `u8` discriminant of a `Direction` (the `self as u8` casts). -/
def toU8 : Direction → ℕ
  | East => 0
  | NorthEast => 1
  | North => 2
  | NorthWest => 3
  | West => 4
  | SouthWest => 5
  | South => 6
  | SouthEast => 7

/-- Embedding of `Direction::from_u8_checked`. -/
def fromU8Checked : ℕ → Option Direction
  | 0 => some East
  | 1 => some NorthEast
  | 2 => some North
  | 3 => some NorthWest
  | 4 => some West
  | 5 => some SouthWest
  | 6 => some South
  | 7 => some SouthEast
  | _ => none

/-- Embedding of `Direction::opposite`: `from_u8(((self as u8) + 4) % 8)`.
The Rust `from_u8` panics out of range; the argument is always `< 8`, so the
`getD` default is never taken (see `fromU8Checked_opposite_isSome`). -/
def opposite (d : Direction) : Direction :=
  (fromU8Checked ((d.toU8 + 4) % 8)).getD d

end Direction

/-! # Shared grid types (`endgame_grid/src/lib.rs`) -/

/-- Embedding of `DirectionType`: face- versus vertex-aligned directions. -/
inductive DirectionType : Type
  | Face
  | Vertex
  deriving DecidableEq, Repr

/-- Embedding of `Color`: the four-colouring values, discriminants 1..4. -/
inductive Color : Type
  | One
  | Two
  | Three
  | Four
  deriving DecidableEq, Repr

namespace Color

/-- Embedding of `TryFrom<usize> for Color`: succeeds only on `1..=4`. -/
def tryFrom : ℕ → Option Color
  | 1 => some One
  | 2 => some Two
  | 3 => some Three
  | 4 => some Four
  | _ => none

end Color

/-! # Square grid (`endgame_grid/src/square.rs`) -/

namespace Square

/-- Embedding of the square-grid `Axes` enum. -/
inductive Axes : Type
  | X
  | Y
  deriving DecidableEq, Repr

/-- Embedding of the square `Coord`: an `IVec2`, components modelled as `ℤ`. -/
structure Coord : Type where
  x : ℤ
  y : ℤ
  deriving DecidableEq, Repr

/-- Embedding of `ALLOWED_FACE_DIRECTIONS` for the square grid. -/
def ALLOWED_FACE_DIRECTIONS : List Direction :=
  [.North, .East, .South, .West]

/-- Embedding of `ALLOWED_VERTEX_DIRECTIONS` for the square grid. -/
def ALLOWED_VERTEX_DIRECTIONS : List Direction :=
  [.NorthEast, .SouthEast, .SouthWest, .NorthWest]

/-- Embedding of `Coord::allowed_direction` (square). -/
def allowed_direction (_c : Coord) (dt : DirectionType) (d : Direction) : Bool :=
  match dt with
  | .Face => ALLOWED_FACE_DIRECTIONS.contains d
  | .Vertex => ALLOWED_VERTEX_DIRECTIONS.contains d

/-- Embedding of `ModuleCoord::offset_in_direction` (square). -/
def offset_in_direction (_c : Coord) (dt : DirectionType) (d : Direction) :
    Option Coord :=
  match dt, d with
  | .Face, .North => some ⟨0, 1⟩
  | .Face, .East => some ⟨1, 0⟩
  | .Face, .South => some ⟨0, -1⟩
  | .Face, .West => some ⟨-1, 0⟩
  | .Vertex, .NorthEast => some ⟨1, 1⟩
  | .Vertex, .SouthEast => some ⟨1, -1⟩
  | .Vertex, .SouthWest => some ⟨-1, -1⟩
  | .Vertex, .NorthWest => some ⟨-1, 1⟩
  | _, _ => none

/-- Vector addition of square coordinates (the `Add` impl on `Coord`). -/
def add (a b : Coord) : Coord :=
  ⟨a.x + b.x, a.y + b.y⟩

/-- Embedding of `Coord::move_in_direction` (square): add the offset when the
direction is allowed. -/
def move_in_direction (c : Coord) (dt : DirectionType) (d : Direction) :
    Option Coord :=
  (offset_in_direction c dt d).map (add c)

/-- Embedding of `ModuleCoord::offset_on_axis` (square): positive `Y` is
North, negative `Y` south, positive `X` East, negative `X` West.  The inner
`offset_in_direction` always succeeds for these face directions. -/
def offset_on_axis (c : Coord) (axis : Axes) (positive : Bool) : Coord :=
  let dir : Direction :=
    match axis, positive with
    | .Y, true => .North
    | .Y, false => .South
    | .X, true => .East
    | .X, false => .West
  (offset_in_direction c .Face dir).getD ⟨0, 0⟩

/-- Embedding of `Coord::move_on_axis` (square). -/
def move_on_axis (c : Coord) (axis : Axes) (positive : Bool) : Coord :=
  add c (offset_on_axis c axis positive)

/-- Embedding of `Coord::grid_to_array_offset` (square): the identity on the
integer pair. -/
def grid_to_array_offset (c : Coord) : ℤ × ℤ :=
  (c.x, c.y)

/-- Embedding of `Coord::to_color` (square):
`(x + y).rem_euclid(2) + 1` converted through `TryFrom<usize>`. -/
def to_color (c : Coord) : Option Color :=
  let p := grid_to_array_offset c
  Color.tryFrom ((p.1 + p.2) % 2 + 1).toNat

/-- Embedding of `Coord::rotate_clockwise` (square): `(x, y) ↦ (-y, x)`. -/
def rotate_clockwise (c : Coord) : Coord :=
  ⟨-c.y, c.x⟩

/-- Embedding of `Coord::rotate_counterclockwise` (square):
`(x, y) ↦ (y, -x)`. -/
def rotate_counterclockwise (c : Coord) : Coord :=
  ⟨c.y, -c.x⟩

/-- Embedding of `Coord::reflect` (square): componentwise multiplication by
`(-1, 1)` for axis `X` and `(1, -1)` for axis `Y`. -/
def reflect (c : Coord) (axis : Axes) : Coord :=
  match axis with
  | .X => ⟨c.x * -1, c.y * 1⟩
  | .Y => ⟨c.x * 1, c.y * -1⟩

end Square

/-! # Hex grid (`endgame_grid/src/hex.rs`) -/

namespace Hex

/-- Embedding of the hex-grid `Axes` enum. -/
inductive Axes : Type
  | Q
  | R
  | S
  deriving DecidableEq, Repr

/-- Embedding of the hex `Coord`: axial coordinates, `IVec2::x` is the axial
`q` and `IVec2::y` is the axial `r`. -/
structure Coord : Type where
  q : ℤ
  r : ℤ
  deriving DecidableEq, Repr

/-- Embedding of `ALLOWED_FACE_DIRECTIONS` for the hex grid. -/
def ALLOWED_FACE_DIRECTIONS : List Direction :=
  [.North, .NorthEast, .SouthEast, .South, .SouthWest, .NorthWest]

/-- Embedding of `ALLOWED_VERTEX_DIRECTIONS` for the hex grid. -/
def ALLOWED_VERTEX_DIRECTIONS : List Direction :=
  [.NorthEast, .East, .SouthEast, .SouthWest, .West, .NorthWest]

/-- Embedding of `Coord::allowed_direction` (hex). -/
def allowed_direction (_c : Coord) (dt : DirectionType) (d : Direction) : Bool :=
  match dt with
  | .Face => ALLOWED_FACE_DIRECTIONS.contains d
  | .Vertex => ALLOWED_VERTEX_DIRECTIONS.contains d

/-- Embedding of `ModuleCoord::offset_in_direction` (hex). -/
def offset_in_direction (_c : Coord) (dt : DirectionType) (d : Direction) :
    Option Coord :=
  match dt, d with
  | .Face, .NorthEast => some ⟨1, 0⟩
  | .Face, .North => some ⟨0, 1⟩
  | .Face, .NorthWest => some ⟨-1, 1⟩
  | .Face, .SouthWest => some ⟨-1, 0⟩
  | .Face, .South => some ⟨0, -1⟩
  | .Face, .SouthEast => some ⟨1, -1⟩
  | .Vertex, .East => some ⟨2, -1⟩
  | .Vertex, .NorthEast => some ⟨1, 1⟩
  | .Vertex, .NorthWest => some ⟨-1, 2⟩
  | .Vertex, .West => some ⟨-2, 1⟩
  | .Vertex, .SouthWest => some ⟨-1, -1⟩
  | .Vertex, .SouthEast => some ⟨1, -2⟩
  | _, _ => none

/-- Vector addition of hex coordinates (the `Add` impl on `Coord`). -/
def add (a b : Coord) : Coord :=
  ⟨a.q + b.q, a.r + b.r⟩

/-- Embedding of `Coord::move_in_direction` (hex). -/
def move_in_direction (c : Coord) (dt : DirectionType) (d : Direction) :
    Option Coord :=
  (offset_in_direction c dt d).map (add c)

/-- Embedding of `ModuleCoord::offset_on_axis` (hex). -/
def offset_on_axis (c : Coord) (axis : Axes) (positive : Bool) : Coord :=
  let dir : Direction :=
    match axis, positive with
    | .Q, true => .North
    | .Q, false => .South
    | .R, true => .NorthEast
    | .R, false => .SouthWest
    | .S, true => .SouthEast
    | .S, false => .NorthWest
  (offset_in_direction c .Face dir).getD ⟨0, 0⟩

/-- Embedding of `Coord::move_on_axis` (hex). -/
def move_on_axis (c : Coord) (axis : Axes) (positive : Bool) : Coord :=
  add c (offset_on_axis c axis positive)

/-- Embedding of `Coord::to_cubical`: `(q, -q - r, r)`. -/
def to_cubical (c : Coord) : ℤ × ℤ × ℤ :=
  (c.q, -c.q - c.r, c.r)

/-- Embedding of `Coord::from_cubical`: keeps the `x` and `z` components.
The Rust function asserts `x + y + z = 0`; every call site below passes a
triple whose components sum to zero (their permutations and negations of
`to_cubical` results), so the assertion never fires. -/
def from_cubical (v : ℤ × ℤ × ℤ) : Coord :=
  ⟨v.1, v.2.2⟩

/-- Embedding of `Coord::grid_to_array_offset` (hex):
`(q, r + (q + (q & 1)) / 2)`.  Rust `q & 1` on a two's-complement `i32` is the
non-negative parity `q % 2` (`Int.emod`), and the numerator `q + (q & 1)` is
always even, so truncating division agrees with `Int.ediv`. -/
def grid_to_array_offset (c : Coord) : ℤ × ℤ :=
  (c.q, c.r + (c.q + c.q % 2) / 2)

/-- Embedding of `Coord::to_color` (hex):
`(y + x.rem_euclid(2)).rem_euclid(3) + 1` over the array offset `(x, y)`. -/
def to_color (c : Coord) : Option Color :=
  let p := grid_to_array_offset c
  Color.tryFrom ((p.2 + p.1 % 2) % 3 + 1).toNat

/-- Embedding of `Coord::rotate_clockwise` (hex): negated `zxy` swizzle of the
cubical form. -/
def rotate_clockwise (c : Coord) : Coord :=
  let v := to_cubical c
  from_cubical (-v.2.2, -v.1, -v.2.1)

/-- Embedding of `Coord::rotate_counterclockwise` (hex): negated `yzx`
swizzle of the cubical form. -/
def rotate_counterclockwise (c : Coord) : Coord :=
  let v := to_cubical c
  from_cubical (-v.2.1, -v.2.2, -v.1)

/-- Embedding of `Coord::reflect` (hex): swizzles `xzy` / `yxz` / `zyx` of the
cubical form for axes `Q` / `R` / `S`. -/
def reflect (c : Coord) (axis : Axes) : Coord :=
  let v := to_cubical c
  match axis with
  | .Q => from_cubical (v.1, v.2.2, v.2.1)
  | .R => from_cubical (v.2.1, v.1, v.2.2)
  | .S => from_cubical (v.2.2, v.2.1, v.1)

end Hex

/-! # Triangle grid (`endgame_grid/src/triangle.rs`) -/

namespace Triangle

/-- Embedding of the triangle-grid `Axes` enum. -/
inductive Axes : Type
  | A
  | B
  | C
  deriving DecidableEq, Repr

/-- Embedding of `TrianglePoint`: which way the triangular cell points. -/
inductive TrianglePoint : Type
  | Up
  | Down
  deriving DecidableEq, Repr

/-- Embedding of `TrianglePoint::opposite`. -/
def TrianglePoint.opposite : TrianglePoint → TrianglePoint
  | .Up => .Down
  | .Down => .Up

/-- Embedding of the triangle `Coord`: an `IVec2` plus a `TrianglePoint`. -/
structure Coord : Type where
  x : ℤ
  y : ℤ
  point : TrianglePoint
  deriving DecidableEq, Repr

/-- Embedding of `ALLOWED_DIRECTIONS_UP`: the allowed movement directions for
upward-facing triangles. -/
def ALLOWED_DIRECTIONS_UP : List Direction :=
  [.NorthEast, .South, .NorthWest]

/-- Embedding of `ALLOWED_DIRECTIONS_DOWN`: the opposites of the upward set,
exactly as the Rust `iter().map(|d| !d)`. -/
def ALLOWED_DIRECTIONS_DOWN : List Direction :=
  ALLOWED_DIRECTIONS_UP.map Direction.opposite

/-- Embedding of `Coord::allowed_directions` (triangle): select by the point,
inverted for vertex directions. -/
def allowed_directions (c : Coord) (dt : DirectionType) : List Direction :=
  let point := if dt = .Vertex then c.point.opposite else c.point
  match point with
  | .Up => ALLOWED_DIRECTIONS_UP
  | .Down => ALLOWED_DIRECTIONS_DOWN

/-- Embedding of `Coord::allowed_direction` (triangle). -/
def allowed_direction (c : Coord) (dt : DirectionType) (d : Direction) : Bool :=
  (allowed_directions c dt).contains d

/-- Embedding of `Coord::move_in_direction` (triangle): table of offsets by
direction type, current point and direction; every defined move flips the
point. -/
def move_in_direction (c : Coord) (dt : DirectionType) (d : Direction) :
    Option Coord :=
  let offset : Option (ℤ × ℤ) :=
    match dt, c.point, d with
    | .Face, .Up, .NorthEast => some (0, 0)
    | .Face, .Up, .South => some (0, -1)
    | .Face, .Up, .NorthWest => some (-1, 0)
    | .Face, .Down, .North => some (0, 1)
    | .Face, .Down, .SouthEast => some (1, 0)
    | .Face, .Down, .SouthWest => some (0, 0)
    | .Vertex, .Up, .North => some (-1, 1)
    | .Vertex, .Up, .SouthEast => some (1, -1)
    | .Vertex, .Up, .SouthWest => some (-1, -1)
    | .Vertex, .Down, .South => some (1, -1)
    | .Vertex, .Down, .NorthWest => some (-1, 1)
    | .Vertex, .Down, .NorthEast => some (1, 1)
    | _, _, _ => none
  offset.map (fun o => ⟨c.x + o.1, c.y + o.2, c.point.opposite⟩)

/-- Embedding of `Coord::move_on_axis` (triangle): table of offsets by point,
axis and sign; always flips the point. -/
def move_on_axis (c : Coord) (axis : Axes) (positive : Bool) : Coord :=
  let offset : ℤ × ℤ :=
    match c.point, axis, positive with
    | .Up, .A, true => (0, 0)
    | .Up, .A, false => (0, -1)
    | .Up, .B, true => (0, 0)
    | .Up, .B, false => (-1, 0)
    | .Up, .C, true => (-1, 0)
    | .Up, .C, false => (0, -1)
    | .Down, .A, true => (0, 1)
    | .Down, .A, false => (0, 0)
    | .Down, .B, true => (1, 0)
    | .Down, .B, false => (0, 0)
    | .Down, .C, true => (0, 1)
    | .Down, .C, false => (1, 0)
  ⟨c.x + offset.1, c.y + offset.2, c.point.opposite⟩

/-- Embedding of `Coord::to_cubical` (triangle): `(x, y, z_offset - x - y)`
with `z_offset` 2 for Up and 1 for Down. -/
def to_cubical (c : Coord) : ℤ × ℤ × ℤ :=
  let z_offset : ℤ := match c.point with | .Up => 2 | .Down => 1
  (c.x, c.y, z_offset - c.x - c.y)

/-- Embedding of `Coord::from_cubical` (triangle).  The Rust function asserts
the component sum is 1 or 2; every call site below preserves that invariant
(rotation and reflection permute the offset components, keeping the sum), so
the assertion never fires.  For sum 2 the point is Up with `z_offset` 2,
otherwise Down with `z_offset` 1, and the stored pair is
`(z_offset - y - z, z_offset - x - z)`. -/
def from_cubical (v : ℤ × ℤ × ℤ) : Coord :=
  let sum := v.1 + v.2.1 + v.2.2
  let up := sum = 2
  let z_offset : ℤ := if up then 2 else 1
  ⟨z_offset - v.2.1 - v.2.2, z_offset - v.1 - v.2.2,
    if up then .Up else .Down⟩

/-- Embedding of `Coord::grid_to_array_offset` (triangle):
`(2x + (0 for Up, 1 for Down), y)`. -/
def grid_to_array_offset (c : Coord) : ℤ × ℤ :=
  let x_offset : ℤ := match c.point with | .Up => 0 | .Down => 1
  (c.x * 2 + x_offset, c.y)

/-- Embedding of `Coord::to_color` (triangle):
`(x + 2y).rem_euclid(2) + 1` over the array offset `(x, y)`. -/
def to_color (c : Coord) : Option Color :=
  let p := grid_to_array_offset c
  Color.tryFrom ((p.1 + 2 * p.2) % 2 + 1).toNat

/-- Subtraction of the constant cubical offset `(0, 0, 2)` used by the
triangle rotations and reflections. -/
def cubical_offset (c : Coord) : ℤ × ℤ × ℤ :=
  let v := to_cubical c
  (v.1, v.2.1, v.2.2 - 2)

/-- Embedding of `Coord::rotate_clockwise` (triangle):
`ONE - (ONE - o.yzx).yzx` on the offset cubical form `o`, then undo the
offset. -/
def rotate_clockwise (c : Coord) : Coord :=
  let o := cubical_offset c
  let s := (1 - o.2.1, 1 - o.2.2, 1 - o.1)
  let result := (1 - s.2.1, 1 - s.2.2, 1 - s.1)
  from_cubical (result.1, result.2.1, result.2.2 + 2)

/-- Embedding of `Coord::rotate_counterclockwise` (triangle):
`ONE - (ONE - o.zxy).zxy` on the offset cubical form. -/
def rotate_counterclockwise (c : Coord) : Coord :=
  let o := cubical_offset c
  let s := (1 - o.2.2, 1 - o.1, 1 - o.2.1)
  let result := (1 - s.2.2, 1 - s.1, 1 - s.2.1)
  from_cubical (result.1, result.2.1, result.2.2 + 2)

/-- Embedding of `Coord::reflect` (triangle): swizzles `xzy` / `zyx` / `yxz`
of the offset cubical form for axes `A` / `B` / `C`. -/
def reflect (c : Coord) (axis : Axes) : Coord :=
  let o := cubical_offset c
  let result : ℤ × ℤ × ℤ :=
    match axis with
    | .A => (o.1, o.2.2, o.2.1)
    | .B => (o.2.2, o.2.1, o.1)
    | .C => (o.2.1, o.1, o.2.2)
  from_cubical (result.1, result.2.1, result.2.2 + 2)

end Triangle



/-! # The generic ring construction (`endgame_grid/src/utils.rs`) -/

/-- The coordinate operations the generic `ring` helper uses, bundled so the
helper can be embedded once for all three topologies (in the Rust source they
are the `Coord` trait methods). -/
structure CoordOps (C : Type) (A : Type) : Type where
  rotate_clockwise : C → C
  rotate_counterclockwise : C → C
  move_on_axis : C → A → Bool → C

/-- Embedding of the `Coord::rotate` default method: positive steps apply
`rotate_clockwise` that many times, otherwise `rotate_counterclockwise`. -/
def CoordOps.rotate {C A : Type} (ops : CoordOps C A) (steps : ℤ) (c : C) : C :=
  if 0 < steps then ops.rotate_clockwise^[steps.toNat] c
  else ops.rotate_counterclockwise^[(-steps).toNat] c

namespace Utils

/-- The cyclic axis iterator of `utils::ring`: `axes.cycle()` positioned at
index `i`.  The fallback of `getD` is never used because `axes` is non-empty
at every call site. -/
def cycleGet {A : Type} (axes : List A) (fallback : A) (i : ℕ) : A :=
  axes.getD (i % axes.length) fallback

/-- Embedding of the inner loop of `utils::ring`: repeatedly insert the
current coordinate and move along the axis until the move reaches the next
corner.  The Rust loop is unbounded, so fuel is added; `none` means the fuel
ran out. -/
def ringWalk {C : Type} [DecidableEq C] (move : C → C) (corner : C) :
    ℕ → C → Finset C → Option (Finset C)
  | 0, _, _ => none
  | fuel + 1, cur, acc =>
    let next := move cur
    if next = corner then some (insert cur acc)
    else ringWalk move corner fuel next (insert cur acc)

/-- Embedding of the outer loop of `utils::ring`: rotate to find the next
corner, walk the axis to it, stop when back at the start, flipping the axis
sign whenever the upcoming axis is `flip_axis`.  Fuel bounds the number of
legs. -/
def ringLoop {C A : Type} [DecidableEq C] [DecidableEq A] (ops : CoordOps C A)
    (start : C) (start_axis flip_axis : A) (axes : List A)
    (rotation_step : ℤ) (walkFuel : ℕ) :
    ℕ → ℕ → Bool → C → Finset C → Option (Finset C)
  | 0, _, _, _, _ => none
  | legFuel + 1, axIdx, axis_sign, current, coords =>
    let next_corner := ops.rotate rotation_step current
    let axis := cycleGet axes start_axis axIdx
    match ringWalk (fun c => ops.move_on_axis c axis axis_sign) next_corner
        walkFuel current coords with
    | none => none
    | some coords' =>
      if next_corner = start then some coords'
      else
        let axis_sign' :=
          if cycleGet axes start_axis (axIdx + 1) = flip_axis then !axis_sign
          else axis_sign
        ringLoop ops start start_axis flip_axis axes rotation_step walkFuel
          legFuel (axIdx + 1) axis_sign' next_corner coords'

/-- Embedding of `utils::ring`: start at the axis-cycle position of
`start_axis` (the `skip_while`), with a `false` axis sign, no accumulated
coordinates, and the start coordinate as current. -/
def ring {C A : Type} [DecidableEq C] [DecidableEq A] (ops : CoordOps C A)
    (start : C) (start_axis flip_axis : A) (axes : List A)
    (rotation_step : ℤ) (walkFuel legFuel : ℕ) : Option (Finset C) :=
  ringLoop ops start start_axis flip_axis axes rotation_step walkFuel legFuel
    (axes.findIdx (fun a => a = start_axis)) false start ∅

end Utils

/-! # Per-topology rings and ranges (claim C5) -/

/-- The `Coord::AXES` constant of the square grid. -/
def Square.AXES : List Square.Axes :=
  [.X, .Y]

/-- The square coordinate operations used by the generic ring helper. -/
def Square.ops : CoordOps Square.Coord Square.Axes :=
  ⟨Square.rotate_clockwise, Square.rotate_counterclockwise, Square.move_on_axis⟩

/-- Embedding of `square::Coord::ring`: radius 0 is the default (origin)
coordinate alone, otherwise the generic ring from `(radius, radius)` starting
on axis `Y` (also the flip axis) with rotation step `-1`.  The fuel (an
artifact of the embedding) is enough for the four legs of `2 * radius` moves
each. -/
def Square.ring (radius : ℕ) : Option (Finset Square.Coord) :=
  if radius = 0 then some {⟨0, 0⟩}
  else
    Utils.ring Square.ops ⟨(radius : ℤ), (radius : ℤ)⟩ .Y .Y Square.AXES (-1)
      (2 * radius + 1) 5

/-- Embedding of `square::Coord::range`: all coordinates with both components
in `-radius..=radius`. -/
def Square.range (radius : ℕ) : Finset Square.Coord :=
  (Finset.Icc (-(radius : ℤ)) (radius : ℤ) ×ˢ
      Finset.Icc (-(radius : ℤ)) (radius : ℤ)).image
    (fun p => ⟨p.1, p.2⟩)

/-- The `Coord::AXES` constant of the hex grid. -/
def Hex.AXES : List Hex.Axes :=
  [.Q, .R, .S]

/-- The hex coordinate operations used by the generic ring helper. -/
def Hex.ops : CoordOps Hex.Coord Hex.Axes :=
  ⟨Hex.rotate_clockwise, Hex.rotate_counterclockwise, Hex.move_on_axis⟩

/-- Embedding of `hex::Coord::ring`: radius 0 is the default (origin)
coordinate alone, otherwise the generic ring from `(radius, 0)` starting on
axis `Q` (also the flip axis) with rotation step `-1`.  The fuel is enough
for the six legs of `radius` moves each. -/
def Hex.ring (radius : ℕ) : Option (Finset Hex.Coord) :=
  if radius = 0 then some {⟨0, 0⟩}
  else
    Utils.ring Hex.ops ⟨(radius : ℤ), 0⟩ .Q .Q Hex.AXES (-1) (radius + 1) 7

/-- Embedding of `hex::Coord::range`: loop `q`, `r`, `s` over
`-radius..=radius`, build the cubical vector `(q, s, r)`, keep it when its
components sum to zero, and convert through `from_cubical`. -/
def Hex.range (radius : ℕ) : Finset Hex.Coord :=
  ((Finset.Icc (-(radius : ℤ)) (radius : ℤ) ×ˢ
        Finset.Icc (-(radius : ℤ)) (radius : ℤ) ×ˢ
        Finset.Icc (-(radius : ℤ)) (radius : ℤ)).filter
      (fun t => t.1 + t.2.2 + t.2.1 = 0)).image
    (fun t => Hex.from_cubical (t.1, t.2.2, t.2.1))

/-- The `Coord::AXES` constant of the triangle grid. -/
def Triangle.AXES : List Triangle.Axes :=
  [.A, .B, .C]

/-- The triangle coordinate operations used by the generic ring helper. -/
def Triangle.ops : CoordOps Triangle.Coord Triangle.Axes :=
  ⟨Triangle.rotate_clockwise, Triangle.rotate_counterclockwise,
    Triangle.move_on_axis⟩

/-- Embedding of `triangle::Coord::ring`: radius 0 is the default (upward
origin) coordinate alone, radius 1 is the hard-coded set of its three
downward face neighbours, and otherwise the generic ring from
`(radius - 1, radius - 1, Down)` starting on axis `B` with flip axis `A` and
rotation step `1`.  The fuel is enough for the three legs of
`6 * radius - 4` moves each. -/
def Triangle.ring (radius : ℕ) : Option (Finset Triangle.Coord) :=
  if radius = 0 then some {⟨0, 0, .Up⟩}
  else if radius = 1 then
    some {⟨0, 0, .Down⟩, ⟨0, -1, .Down⟩, ⟨-1, 0, .Down⟩}
  else
    Utils.ring Triangle.ops
      ⟨(radius : ℤ) - 1, (radius : ℤ) - 1, .Down⟩ .B .A Triangle.AXES 1
      (6 * radius) 4

/-- Embedding of `triangle::Coord::range`: the union of the rings of every
radius up to and including `radius`. -/
def Triangle.range (radius : ℕ) : Option (Finset Triangle.Coord) :=
  (List.range (radius + 1)).foldl
    (fun acc r => acc.bind (fun s => (Triangle.ring r).map (fun t => s ∪ t)))
    (some ∅)


/-! # Norm helpers used to characterise rings (specification definitions) -/

/-- Chebyshev norm of a square coordinate: the ring of radius `m` produced by
`Square.ring` consists of coordinates of norm `m`. -/
def Square.chebNorm (c : Square.Coord) : ℕ :=
  max c.x.natAbs c.y.natAbs

/-- Hex norm of an axial coordinate (the hex distance from the origin). -/
def Hex.hexNorm (c : Hex.Coord) : ℕ :=
  max (max c.q.natAbs c.r.natAbs) (c.q + c.r).natAbs

/-- Ring index of a triangle coordinate: the unique radius whose ring the
coordinate belongs to.  In the offset cubical coordinates (components
`x`, `y`, `z - x - y` with `z` 0 for Up and -1 for Down) every ring of
radius `m ≥ 1` consists of the coordinates of maximal component `m - 1`,
except that the upward origin (maximal component 0) forms the ring of
radius 0 by itself. -/
def Triangle.ringIdx (c : Triangle.Coord) : ℤ :=
  let z : ℤ := if c.point = .Up then 0 else -1
  let m := max (max c.x c.y) (z - c.x - c.y)
  if c.point = .Up then (if m = 0 then 0 else m + 1) else m + 1


/-! # SizedGrid geometry (real-number model of the `f32` arithmetic) -/

/-- Embedding of the screen-space point type (`glam::Vec2`), with `f32`
modelled as `ℝ`. -/
abbrev Point : Type := ℝ × ℝ

/-- Embedding of `glam::Mat2` in column-major form: `a b` is the first
column, `c d` the second. -/
structure Mat2 : Type where
  a : ℝ
  b : ℝ
  c : ℝ
  d : ℝ

/-- Matrix-vector product of a `Mat2` and a `Vec2`. -/
def Mat2.mulVec (m : Mat2) (v : Point) : Point :=
  (m.a * v.1 + m.c * v.2, m.b * v.1 + m.d * v.2)

/-- Determinant of a `Mat2`. -/
def Mat2.det (m : Mat2) : ℝ :=
  m.a * m.d - m.b * m.c

/-- Embedding of `glam::Mat2::inverse`: the adjugate over the
determinant. -/
noncomputable def Mat2.inverse (m : Mat2) : Mat2 :=
  ⟨m.d / m.det, -m.b / m.det, -m.c / m.det, m.a / m.det⟩

/-- Embedding of `f32::round` over `ℝ`: round half away from zero. -/
noncomputable def rustRound (x : ℝ) : ℤ :=
  if x < 0 then -⌊-x + 1 / 2⌋ else ⌊x + 1 / 2⌋

namespace Square

/-- Embedding of the square `SizedGrid`: just the inradius scalar. -/
structure SizedGrid : Type where
  inradius : ℝ

/-- Embedding of `SizedGrid::conversion_matrix` (square):
columns `(2, 0)` and `(0, 2)`. -/
def SizedGrid.conversion_matrix : Mat2 :=
  ⟨2, 0, 0, 2⟩

/-- Embedding of `SizedGrid::circumradius` (square):
`(2 * inradius) / sqrt 2`. -/
noncomputable def SizedGrid.circumradius (g : SizedGrid) : ℝ :=
  2 * g.inradius / Real.sqrt 2

/-- Embedding of `SizedGrid::edge_length` (square). -/
def SizedGrid.edge_length (g : SizedGrid) : ℝ :=
  2 * g.inradius

/-- Embedding of `SizedGrid::grid_to_screen` (square):
`inradius * M * (x, y)`. -/
def SizedGrid.grid_to_screen (g : SizedGrid) (c : Coord) : Point :=
  let p := SizedGrid.conversion_matrix.mulVec ((c.x : ℝ), (c.y : ℝ))
  (g.inradius * p.1, g.inradius * p.2)

/-- Embedding of `SizedGrid::screen_to_grid` (square):
`M⁻¹ * point / inradius`, rounded componentwise. -/
noncomputable def SizedGrid.screen_to_grid (g : SizedGrid) (point : Point) :
    Coord :=
  let grid := SizedGrid.conversion_matrix.inverse.mulVec point
  ⟨rustRound (grid.1 / g.inradius), rustRound (grid.2 / g.inradius)⟩

/-- Embedding of the square `GridIterator` state. -/
structure GridIterator : Type where
  current_y : ℤ
  end_y : ℤ
  start_x : ℤ
  current_x : ℤ
  end_x : ℤ

/-- Embedding of `SizedGrid::screen_rect_to_grid` (square): `none` when
`min` is not componentwise at most `max`, otherwise the rectangular sweep
iterator over the rounded corner coordinates. -/
noncomputable def SizedGrid.screen_rect_to_grid (g : SizedGrid)
    (pmin pmax : Point) : Option GridIterator :=
  if ¬(pmin.1 ≤ pmax.1 ∧ pmin.2 ≤ pmax.2) then none
  else
    let min_coord := g.screen_to_grid pmin
    let max_coord := g.screen_to_grid pmax
    some ⟨min_coord.y, max_coord.y, min_coord.x, min_coord.x, max_coord.x⟩

end Square

namespace Hex

/-- Embedding of the hex `SizedGrid`. -/
structure SizedGrid : Type where
  inradius : ℝ

/-- Embedding of `SizedGrid::circumradius` (hex):
`(2 * inradius) / sqrt 3`. -/
noncomputable def SizedGrid.circumradius (g : SizedGrid) : ℝ :=
  2 * g.inradius / Real.sqrt 3

/-- Embedding of `SizedGrid::edge_length` (hex): equal to the
circumradius. -/
noncomputable def SizedGrid.edge_length (g : SizedGrid) : ℝ :=
  g.circumradius

/-- Embedding of `SizedGrid::conversion_matrix` (hex): columns
`from_angle(π/6) * sqrt 3` and `from_angle(π/2) * sqrt 3`. -/
noncomputable def SizedGrid.conversion_matrix : Mat2 :=
  ⟨Real.sqrt 3 * Real.cos (Real.pi / 6), Real.sqrt 3 * Real.sin (Real.pi / 6),
    Real.sqrt 3 * Real.cos (Real.pi / 2), Real.sqrt 3 * Real.sin (Real.pi / 2)⟩

/-- Embedding of `Coord::hex_round`: round the cubical components and push
the largest rounding error back onto the constraint `x + y + z = 0`.  The
`f32` arithmetic on the already-rounded integral values is carried out in
`ℤ`. -/
noncomputable def hex_round (cube : ℝ × ℝ × ℝ) : ℤ × ℤ × ℤ :=
  let rx := rustRound cube.1
  let ry := rustRound cube.2.1
  let rz := rustRound cube.2.2
  let x_diff := |(rx : ℝ) - cube.1|
  let y_diff := |(ry : ℝ) - cube.2.1|
  let z_diff := |(rz : ℝ) - cube.2.2|
  if x_diff > y_diff ∧ x_diff > z_diff then (-ry - rz, ry, rz)
  else if y_diff > z_diff then (rx, -rx - rz, rz)
  else (rx, ry, -rx - ry)

/-- Embedding of `SizedGrid::screen_to_grid` (hex):
`M⁻¹ * point / circumradius`, then `hex_round` on the axial-to-cubical
lift, then `from_cubical`. -/
noncomputable def SizedGrid.screen_to_grid (g : SizedGrid) (point : Point) :
    Coord :=
  let grid := SizedGrid.conversion_matrix.inverse.mulVec point
  let gx := grid.1 / g.circumradius
  let gy := grid.2 / g.circumradius
  from_cubical (hex_round (gx, -gx - gy, gy))

/-- Embedding of the hex `GridIterator` state.  The Rust `as usize` cast of
`row_length` is modelled with `Int.toNat` (the value is non-negative for
every state the library builds). -/
structure GridIterator : Type where
  min : Point
  max : Point
  row_coord : Coord
  current_coord : Coord
  end_r : ℤ
  row_index : ℕ
  row_length : ℕ
  sized_grid : SizedGrid

/-- Embedding of `SizedGrid::screen_rect_to_grid` (hex): `none` when `min`
is not componentwise at most `max`; otherwise expand the corner coordinates
one face step outwards and build the row iterator.  The Rust `expect`s on
the two moves are modelled by `Option.bind`; the moves always succeed (see
the claim C9 theorem), so no extra failure is introduced.  `end_r` uses the
truncating `i32` division `Int.tdiv`. -/
noncomputable def SizedGrid.screen_rect_to_grid (g : SizedGrid)
    (pmin pmax : Point) : Option GridIterator :=
  if ¬(pmin.1 ≤ pmax.1 ∧ pmin.2 ≤ pmax.2) then none
  else
    (move_in_direction (g.screen_to_grid pmin) .Face .SouthWest).bind
      fun min_coord =>
        (move_in_direction (g.screen_to_grid pmax) .Face .NorthEast).map
          fun max_coord =>
            ⟨pmin, pmax, min_coord, min_coord,
              max_coord.r + Int.tdiv (max_coord.q - min_coord.q) 2 + 1, 0,
              (max_coord.q - min_coord.q + 1).toNat, g⟩

end Hex

namespace Triangle

/-- Embedding of the triangle `SizedGrid`. -/
structure SizedGrid : Type where
  inradius : ℝ

/-- Embedding of `SizedGrid::circumradius` (triangle): `2 * inradius`. -/
def SizedGrid.circumradius (g : SizedGrid) : ℝ :=
  2 * g.inradius

/-- Embedding of `SizedGrid::edge_length` (triangle):
`6 * inradius / sqrt 3`. -/
noncomputable def SizedGrid.edge_length (g : SizedGrid) : ℝ :=
  6 * g.inradius / Real.sqrt 3

/-- Embedding of `SizedGrid::a_basis`: `from_angle(11π/6)`. -/
noncomputable def SizedGrid.a_basis : Point :=
  (Real.cos (11 * Real.pi / 6), Real.sin (11 * Real.pi / 6))

/-- Embedding of `SizedGrid::b_basis`: `from_angle(π/2)`. -/
noncomputable def SizedGrid.b_basis : Point :=
  (Real.cos (Real.pi / 2), Real.sin (Real.pi / 2))

/-- Embedding of `SizedGrid::c_basis`: `from_angle(7π/6)`. -/
noncomputable def SizedGrid.c_basis : Point :=
  (Real.cos (7 * Real.pi / 6), Real.sin (7 * Real.pi / 6))

/-- The `from_cubical` call made by the triangle `screen_to_grid`, keeping
the Rust assertion that the cubical components sum to 1 or 2: `none` models
the panic when the assertion fails.  Unlike the rotation and reflection call
sites, this one can receive an invalid triple: the three basis vectors sum
to zero, so when all three lane projections are integral the ceilings sum
to 0 and the Rust code panics. -/
def from_cubical_checked (v : ℤ × ℤ × ℤ) : Option Coord :=
  let sum := v.1 + v.2.1 + v.2.2
  if sum = 1 ∨ sum = 2 then some (from_cubical v) else none

/-- Embedding of `SizedGrid::screen_to_grid` (triangle): offset the point,
project onto the three basis vectors, divide by the cell height and take
ceilings, then convert from cubical coordinates.  The conversion keeps the
`from_cubical` assertion, so the result is `none` exactly when the Rust
code would panic. -/
noncomputable def SizedGrid.screen_to_grid (g : SizedGrid) (point : Point) :
    Option Coord :=
  let height := g.inradius + g.circumradius
  let offset_point : Point :=
    (point.1 + -g.edge_length, point.2 + -g.circumradius)
  let a_component :=
    SizedGrid.a_basis.1 * offset_point.1 + SizedGrid.a_basis.2 * offset_point.2
  let b_component :=
    SizedGrid.b_basis.1 * offset_point.1 + SizedGrid.b_basis.2 * offset_point.2
  let c_component :=
    SizedGrid.c_basis.1 * offset_point.1 + SizedGrid.c_basis.2 * offset_point.2
  from_cubical_checked
    (⌈a_component / height⌉, ⌈b_component / height⌉, ⌈c_component / height⌉)

/-- Embedding of the triangle `GridIterator` state.  The Rust `as usize`
cast of `row_length` is modelled with `Int.toNat`. -/
structure GridIterator : Type where
  min : Point
  max : Point
  row_coord : Coord
  current_coord : Coord
  end_y : ℤ
  row_index : ℕ
  row_length : ℕ
  sized_grid : SizedGrid

/-- Embedding of `SizedGrid::screen_rect_to_grid` (triangle): `none` when
`min` is not componentwise at most `max`; otherwise convert both corners
(`none` here models the `from_cubical` panic inside `screen_to_grid`),
expand them along axis `B` and build the row iterator. -/
noncomputable def SizedGrid.screen_rect_to_grid (g : SizedGrid)
    (pmin pmax : Point) : Option GridIterator :=
  if ¬(pmin.1 ≤ pmax.1 ∧ pmin.2 ≤ pmax.2) then none
  else
    (g.screen_to_grid pmin).bind fun cmin =>
      (g.screen_to_grid pmax).map fun cmax =>
        let min_coord := move_on_axis cmin .B false
        let max_coord := move_on_axis cmax .B true
        ⟨pmin, pmax, min_coord, min_coord, max_coord.y, 0,
          ((max_coord.x - min_coord.x) * 2 +
            (max_coord.y - min_coord.y) + 2).toNat,
          g⟩

end Triangle

/-! # Theorems -/

namespace Direction

theorem fromU8Checked_opposite_isSome (d : Direction) :
    (fromU8Checked ((d.toU8 + 4) % 8)).isSome := by
  cases d <;> decide

@[simp] theorem opposite_east : opposite East = West := rfl

@[simp] theorem opposite_west : opposite West = East := rfl

@[simp] theorem opposite_north : opposite North = South := rfl

@[simp] theorem opposite_south : opposite South = North := rfl

@[simp] theorem opposite_northEast : opposite NorthEast = SouthWest := rfl

@[simp] theorem opposite_southWest : opposite SouthWest = NorthEast := rfl

@[simp] theorem opposite_northWest : opposite NorthWest = SouthEast := rfl

@[simp] theorem opposite_southEast : opposite SouthEast = NorthWest := rfl

end Direction

/-- Sanity check from the spec's concrete scenarios: the square origin moved
East is `(1, 0)`. -/
theorem square_origin_east :
    Square.move_in_direction ⟨0, 0⟩ .Face .East = some ⟨1, 0⟩ := by decide

/-- Sanity check from the spec's concrete scenarios: the triangle coordinates
`(0, 0, Up)` and `(0, 0, Down)` have array offsets `(0, 0)` and `(1, 0)`. -/
theorem triangle_origin_array_offsets :
    Triangle.grid_to_array_offset ⟨0, 0, .Up⟩ = (0, 0) ∧
    Triangle.grid_to_array_offset ⟨0, 0, .Down⟩ = (1, 0) := by decide

/-! # Round-trip of array offsets (claim C6) -/

theorem square_rotate_inverses (c : Square.Coord) :
    Square.rotate_counterclockwise (Square.rotate_clockwise c) = c ∧
    Square.rotate_clockwise (Square.rotate_counterclockwise c) = c := by
  obtain ⟨x, y⟩ := c
  constructor <;> simp [Square.rotate_clockwise, Square.rotate_counterclockwise]

theorem square_reflect_involution (c : Square.Coord) (axis : Square.Axes) :
    Square.reflect (Square.reflect c axis) axis = c := by
  obtain ⟨x, y⟩ := c
  cases axis <;> simp [Square.reflect]

theorem hex_rotate_inverses (c : Hex.Coord) :
    Hex.rotate_counterclockwise (Hex.rotate_clockwise c) = c ∧
    Hex.rotate_clockwise (Hex.rotate_counterclockwise c) = c := by
  obtain ⟨q, r⟩ := c
  constructor <;>
    simp [Hex.rotate_clockwise, Hex.rotate_counterclockwise, Hex.to_cubical,
      Hex.from_cubical]

theorem hex_reflect_involution (c : Hex.Coord) (axis : Hex.Axes) :
    Hex.reflect (Hex.reflect c axis) axis = c := by
  obtain ⟨q, r⟩ := c
  cases axis <;>
    simp [Hex.reflect, Hex.to_cubical, Hex.from_cubical]

theorem triangle_rotate_inverses (c : Triangle.Coord) :
    Triangle.rotate_counterclockwise (Triangle.rotate_clockwise c) = c ∧
    Triangle.rotate_clockwise (Triangle.rotate_counterclockwise c) = c := by
  obtain ⟨x, y, pt⟩ := c
  cases pt <;>
    constructor <;>
    simp [Triangle.rotate_clockwise, Triangle.rotate_counterclockwise,
      Triangle.cubical_offset, Triangle.to_cubical, Triangle.from_cubical] <;>
    split_ifs <;> simp_all <;> omega

theorem triangle_reflect_involution (c : Triangle.Coord) (axis : Triangle.Axes) :
    Triangle.reflect (Triangle.reflect c axis) axis = c := by
  obtain ⟨x, y, pt⟩ := c
  cases pt <;> cases axis <;>
    simp [Triangle.reflect, Triangle.cubical_offset, Triangle.to_cubical,
      Triangle.from_cubical] <;>
    split_ifs <;> simp_all <;> omega

/-- Claim C7: for every topology, `rotate_clockwise` and
`rotate_counterclockwise` are mutually inverse, and `reflect` with any one
axis of the topology is an involution. -/
theorem claim_C7_rotate_reflect_identities :
    (∀ c : Square.Coord,
      Square.rotate_counterclockwise (Square.rotate_clockwise c) = c ∧
      Square.rotate_clockwise (Square.rotate_counterclockwise c) = c ∧
      ∀ axis, Square.reflect (Square.reflect c axis) axis = c) ∧
    (∀ c : Hex.Coord,
      Hex.rotate_counterclockwise (Hex.rotate_clockwise c) = c ∧
      Hex.rotate_clockwise (Hex.rotate_counterclockwise c) = c ∧
      ∀ axis, Hex.reflect (Hex.reflect c axis) axis = c) ∧
    (∀ c : Triangle.Coord,
      Triangle.rotate_counterclockwise (Triangle.rotate_clockwise c) = c ∧
      Triangle.rotate_clockwise (Triangle.rotate_counterclockwise c) = c ∧
      ∀ axis, Triangle.reflect (Triangle.reflect c axis) axis = c) :=
  ⟨fun c => ⟨(square_rotate_inverses c).1, (square_rotate_inverses c).2,
    fun axis => square_reflect_involution c axis⟩,
  fun c => ⟨(hex_rotate_inverses c).1, (hex_rotate_inverses c).2,
    fun axis => hex_reflect_involution c axis⟩,
  fun c => ⟨(triangle_rotate_inverses c).1, (triangle_rotate_inverses c).2,
    fun axis => triangle_reflect_involution c axis⟩⟩

/-! # Triangle moves flip the orientation flag (claim C10) -/

/-- Claim C10: every defined triangle move flips the `TrianglePoint` flag:
`move_in_direction`, whenever it returns a coordinate, flips Up to Down and
vice versa, and `move_on_axis` always flips it. -/
theorem claim_C10_triangle_moves_flip_point :
    (∀ (c : Triangle.Coord) (dt : DirectionType) (d : Direction)
      (c' : Triangle.Coord), Triangle.move_in_direction c dt d = some c' →
      c'.point = c.point.opposite) ∧
    (∀ (c : Triangle.Coord) (axis : Triangle.Axes) (positive : Bool),
      (Triangle.move_on_axis c axis positive).point = c.point.opposite) := by
  constructor
  · intro c dt d c' h
    obtain ⟨x, y, pt⟩ := c
    cases dt <;> cases pt <;> cases d <;>
      simp [Triangle.move_in_direction] at h <;> simp [← h]
  · intro c axis positive
    obtain ⟨x, y, pt⟩ := c
    cases axis <;> cases pt <;> cases positive <;> rfl

/-- Witness for claim C10 at a concrete input: moving NorthEast from the
upward origin triangle lands on the downward triangle at the same pair. -/
theorem claim_C10_witness :
    (Triangle.Coord.mk 0 0 .Down).point = Triangle.TrianglePoint.Up.opposite :=
  claim_C10_triangle_moves_flip_point.1 ⟨0, 0, .Up⟩ .Face .NorthEast
    ⟨0, 0, .Down⟩ rfl

/-! # Moving and then moving in the opposite direction (claim C2) -/

theorem square_move_isSome_iff_allowed (c : Square.Coord)
    (dt : DirectionType) (d : Direction) :
    (Square.move_in_direction c dt d).isSome = Square.allowed_direction c dt d := by
  cases dt <;> cases d <;> rfl

theorem square_move_opposite (c : Square.Coord) (dt : DirectionType)
    (d : Direction) :
    (Square.move_in_direction c dt d).bind
        (fun c' => Square.move_in_direction c' dt d.opposite) =
      if Square.allowed_direction c dt d then some c else none := by
  obtain ⟨x, y⟩ := c
  cases dt <;> cases d <;>
    simp [Square.move_in_direction, Square.offset_in_direction,
      Square.allowed_direction, Square.ALLOWED_FACE_DIRECTIONS,
      Square.ALLOWED_VERTEX_DIRECTIONS, Square.add]

theorem hex_move_isSome_iff_allowed (c : Hex.Coord)
    (dt : DirectionType) (d : Direction) :
    (Hex.move_in_direction c dt d).isSome = Hex.allowed_direction c dt d := by
  cases dt <;> cases d <;> rfl

theorem hex_move_opposite (c : Hex.Coord) (dt : DirectionType) (d : Direction) :
    (Hex.move_in_direction c dt d).bind
        (fun c' => Hex.move_in_direction c' dt d.opposite) =
      if Hex.allowed_direction c dt d then some c else none := by
  obtain ⟨q, r⟩ := c
  cases dt <;> cases d <;>
    simp [Hex.move_in_direction, Hex.offset_in_direction,
      Hex.allowed_direction, Hex.ALLOWED_FACE_DIRECTIONS,
      Hex.ALLOWED_VERTEX_DIRECTIONS, Hex.add]

theorem triangle_move_isSome_iff_allowed (c : Triangle.Coord)
    (dt : DirectionType) (d : Direction) :
    (Triangle.move_in_direction c dt d).isSome =
      Triangle.allowed_direction c dt d := by
  obtain ⟨x, y, pt⟩ := c
  cases dt <;> cases pt <;> cases d <;> rfl

theorem triangle_move_opposite (c : Triangle.Coord) (dt : DirectionType)
    (d : Direction) :
    (Triangle.move_in_direction c dt d).bind
        (fun c' => Triangle.move_in_direction c' dt d.opposite) =
      if Triangle.allowed_direction c dt d then some c else none := by
  obtain ⟨x, y, pt⟩ := c
  cases dt <;> cases pt <;> cases d <;>
    simp [Triangle.move_in_direction, Triangle.allowed_direction,
      Triangle.allowed_directions, Triangle.ALLOWED_DIRECTIONS_UP,
      Triangle.ALLOWED_DIRECTIONS_DOWN, Triangle.TrianglePoint.opposite]

/-- Claim C2: for every topology, coordinate `c`, direction type and
direction `d`: `move_in_direction` succeeds exactly when `d` is allowed at
`c` (so a disallowed `d` yields nothing), and when it succeeds, moving from
the result in `d.opposite()` (which is then allowed there) returns `some c`.
Stated as: chaining the move with the opposite move yields `some c` precisely
on allowed directions. -/
theorem claim_C2_move_opposite_roundtrip :
    (∀ (c : Square.Coord) (dt : DirectionType) (d : Direction),
      (Square.move_in_direction c dt d).isSome =
        Square.allowed_direction c dt d ∧
      (Square.move_in_direction c dt d).bind
          (fun c' => Square.move_in_direction c' dt d.opposite) =
        if Square.allowed_direction c dt d then some c else none) ∧
    (∀ (c : Hex.Coord) (dt : DirectionType) (d : Direction),
      (Hex.move_in_direction c dt d).isSome = Hex.allowed_direction c dt d ∧
      (Hex.move_in_direction c dt d).bind
          (fun c' => Hex.move_in_direction c' dt d.opposite) =
        if Hex.allowed_direction c dt d then some c else none) ∧
    (∀ (c : Triangle.Coord) (dt : DirectionType) (d : Direction),
      (Triangle.move_in_direction c dt d).isSome =
        Triangle.allowed_direction c dt d ∧
      (Triangle.move_in_direction c dt d).bind
          (fun c' => Triangle.move_in_direction c' dt d.opposite) =
        if Triangle.allowed_direction c dt d then some c else none) :=
  ⟨fun c dt d => ⟨square_move_isSome_iff_allowed c dt d,
      square_move_opposite c dt d⟩,
    fun c dt d => ⟨hex_move_isSome_iff_allowed c dt d,
      hex_move_opposite c dt d⟩,
    fun c dt d => ⟨triangle_move_isSome_iff_allowed c dt d,
      triangle_move_opposite c dt d⟩⟩

/-! # Face-adjacent coordinates get distinct colors (claim C4) -/

theorem Color.tryFrom_ne {m n : ℕ} (hm1 : 1 ≤ m) (hm4 : m ≤ 4) (hn1 : 1 ≤ n)
    (hn4 : n ≤ 4) (h : m ≠ n) : Color.tryFrom m ≠ Color.tryFrom n := by
  interval_cases m <;> interval_cases n <;> simp_all [Color.tryFrom]

theorem square_face_neighbor_color (c c' : Square.Coord) (d : Direction)
    (h : Square.move_in_direction c .Face d = some c') :
    Square.to_color c' ≠ Square.to_color c := by
  obtain ⟨x, y⟩ := c
  cases d <;>
    simp [Square.move_in_direction, Square.offset_in_direction,
      Square.add] at h <;>
  · subst h
    refine Color.tryFrom_ne ?_ ?_ ?_ ?_ ?_ <;>
      simp [Square.to_color, Square.grid_to_array_offset] <;> omega

theorem hex_face_neighbor_color (c c' : Hex.Coord) (d : Direction)
    (h : Hex.move_in_direction c .Face d = some c') :
    Hex.to_color c' ≠ Hex.to_color c := by
  obtain ⟨q, r⟩ := c
  cases d <;>
    simp [Hex.move_in_direction, Hex.offset_in_direction, Hex.add] at h <;>
  · subst h
    refine Color.tryFrom_ne ?_ ?_ ?_ ?_ ?_ <;>
      simp [Hex.to_color, Hex.grid_to_array_offset] <;> omega

theorem triangle_face_neighbor_color (c c' : Triangle.Coord) (d : Direction)
    (h : Triangle.move_in_direction c .Face d = some c') :
    Triangle.to_color c' ≠ Triangle.to_color c := by
  obtain ⟨x, y, pt⟩ := c
  cases pt <;> cases d <;>
    simp [Triangle.move_in_direction] at h <;>
  · subst h
    refine Color.tryFrom_ne ?_ ?_ ?_ ?_ ?_ <;>
      simp [Triangle.to_color, Triangle.grid_to_array_offset,
        Triangle.TrianglePoint.opposite] <;> omega

/-- Claim C4: for every topology, whenever a face-direction move from `c` is
defined, the colour of the resulting neighbour differs from `to_color c`. -/
theorem claim_C4_face_neighbor_distinct_color :
    (∀ (c c' : Square.Coord) (d : Direction),
      Square.move_in_direction c .Face d = some c' →
      Square.to_color c' ≠ Square.to_color c) ∧
    (∀ (c c' : Hex.Coord) (d : Direction),
      Hex.move_in_direction c .Face d = some c' →
      Hex.to_color c' ≠ Hex.to_color c) ∧
    (∀ (c c' : Triangle.Coord) (d : Direction),
      Triangle.move_in_direction c .Face d = some c' →
      Triangle.to_color c' ≠ Triangle.to_color c) :=
  ⟨square_face_neighbor_color, hex_face_neighbor_color,
    triangle_face_neighbor_color⟩

/-- Witness for claim C4 at concrete inputs: the East neighbour of the square
origin, the NorthEast neighbour of the hex origin and the NorthEast
neighbour of the upward origin triangle all change colour. -/
theorem claim_C4_witness :
    Square.to_color ⟨1, 0⟩ ≠ Square.to_color ⟨0, 0⟩ ∧
    Hex.to_color ⟨1, 0⟩ ≠ Hex.to_color ⟨0, 0⟩ ∧
    Triangle.to_color ⟨0, 0, .Down⟩ ≠ Triangle.to_color ⟨0, 0, .Up⟩ :=
  ⟨claim_C4_face_neighbor_distinct_color.1 ⟨0, 0⟩ ⟨1, 0⟩ .East (by decide),
    claim_C4_face_neighbor_distinct_color.2.1 ⟨0, 0⟩ ⟨1, 0⟩ .NorthEast
      (by decide),
    claim_C4_face_neighbor_distinct_color.2.2 ⟨0, 0, .Up⟩ ⟨0, 0, .Down⟩
      .NorthEast (by decide)⟩

/-- Sanity check from the spec's concrete scenarios: the hex ring of radius 1
contains exactly 6 coordinates. -/
theorem hex_ring_one_card : (Hex.ring 1).map Finset.card = some 6 := by decide

/-- Sanity check: the square ring of radius 1 contains exactly 8
coordinates. -/
theorem square_ring_one_card : (Square.ring 1).map Finset.card = some 8 := by
  decide

/-! # Evaluation of the ring construction -/

/-- The inner ring walk visits exactly the iterates of the move function up
to (and excluding) the first hit of the corner. -/
theorem Utils.ringWalk_eq {C : Type} [DecidableEq C] (move : C → C)
    (corner : C) (n : ℕ) :
    ∀ (fuel : ℕ) (a : C) (acc : Finset C),
      move^[n + 1] a = corner →
      (∀ i, i ≤ n → move^[i] a ≠ corner) →
      n + 1 ≤ fuel →
      Utils.ringWalk move corner fuel a acc =
        some (acc ∪ (Finset.range (n + 1)).image (fun i => move^[i] a)) := by
  induction n with
  | zero =>
    intro fuel a acc hc hne hfuel
    match fuel, hfuel with
    | fuel + 1, _ =>
      have hmove : move a = corner := by simpa using hc
      simp [Utils.ringWalk, hmove]
      ext c
      simp [Finset.mem_insert, Or.comm]
  | succ n ih =>
    intro fuel a acc hc hne hfuel
    match fuel, hfuel with
    | fuel + 1, _ =>
      have hmove : move a ≠ corner := by
        have h1 := hne 1 (by omega)
        simpa using h1
      rw [Utils.ringWalk, if_neg hmove]
      rw [ih fuel (move a) (insert a acc)
        (by rw [← Function.iterate_succ_apply]; exact hc)
        (fun i hi => by
          rw [← Function.iterate_succ_apply]
          exact hne (i + 1) (by omega))
        (by omega)]
      congr 1
      have hfun : (fun i : ℕ => move^[i] (move a)) = fun i : ℕ => move^[i + 1] a := by
        funext i
        rw [← Function.iterate_succ_apply]
      rw [hfun]
      ext c
      simp only [Finset.mem_union, Finset.mem_insert, Finset.mem_image,
        Finset.mem_range]
      constructor
      · rintro ((rfl | hacc) | ⟨i, hi, rfl⟩)
        · exact Or.inr ⟨0, by omega, rfl⟩
        · exact Or.inl hacc
        · exact Or.inr ⟨i + 1, by omega, rfl⟩
      · rintro (hacc | ⟨i, hi, rfl⟩)
        · exact Or.inl (Or.inr hacc)
        · match i with
          | 0 => exact Or.inl (Or.inl rfl)
          | i + 1 => exact Or.inr ⟨i, by omega, rfl⟩

theorem CoordOps.rotate_one {C A : Type} (ops : CoordOps C A) (c : C) :
    ops.rotate 1 c = ops.rotate_clockwise c := by
  simp [CoordOps.rotate]

theorem CoordOps.rotate_neg_one {C A : Type} (ops : CoordOps C A) (c : C) :
    ops.rotate (-1) c = ops.rotate_counterclockwise c := by
  norm_num [CoordOps.rotate]

theorem Square.moveY_neg_iterate (i : ℕ) (a : Square.Coord) :
    (fun c => Square.move_on_axis c .Y false)^[i] a = ⟨a.x, a.y - i⟩ := by
  induction i with
  | zero => simp
  | succ i ih =>
    rw [Function.iterate_succ_apply', ih]
    simp [Square.move_on_axis, Square.offset_on_axis,
      Square.offset_in_direction, Square.add]
    omega

theorem Square.moveY_pos_iterate (i : ℕ) (a : Square.Coord) :
    (fun c => Square.move_on_axis c .Y true)^[i] a = ⟨a.x, a.y + i⟩ := by
  induction i with
  | zero => simp
  | succ i ih =>
    rw [Function.iterate_succ_apply', ih]
    simp [Square.move_on_axis, Square.offset_on_axis,
      Square.offset_in_direction, Square.add]
    omega

theorem Square.moveX_neg_iterate (i : ℕ) (a : Square.Coord) :
    (fun c => Square.move_on_axis c .X false)^[i] a = ⟨a.x - i, a.y⟩ := by
  induction i with
  | zero => simp
  | succ i ih =>
    rw [Function.iterate_succ_apply', ih]
    simp [Square.move_on_axis, Square.offset_on_axis,
      Square.offset_in_direction, Square.add]
    omega

theorem Square.moveX_pos_iterate (i : ℕ) (a : Square.Coord) :
    (fun c => Square.move_on_axis c .X true)^[i] a = ⟨a.x + i, a.y⟩ := by
  induction i with
  | zero => simp
  | succ i ih =>
    rw [Function.iterate_succ_apply', ih]
    simp [Square.move_on_axis, Square.offset_on_axis,
      Square.offset_in_direction, Square.add]
    omega

theorem Square.sq_ops_move : Square.ops.move_on_axis = Square.move_on_axis := rfl

theorem Square.sq_ops_ccw :
    Square.ops.rotate_counterclockwise = Square.rotate_counterclockwise := rfl

theorem Square.cgS1 : Utils.cycleGet Square.AXES Square.Axes.Y 1 = Square.Axes.Y := rfl

theorem Square.cgS2 : Utils.cycleGet Square.AXES Square.Axes.Y 2 = Square.Axes.X := rfl

theorem Square.cgS3 : Utils.cycleGet Square.AXES Square.Axes.Y 3 = Square.Axes.Y := rfl

theorem Square.cgS4 : Utils.cycleGet Square.AXES Square.Axes.Y 4 = Square.Axes.X := rfl

theorem Square.cgS5 : Utils.cycleGet Square.AXES Square.Axes.Y 5 = Square.Axes.Y := rfl

/-- Evaluation of `Square.ring` at a positive radius: the loop terminates and
every produced coordinate has Chebyshev norm exactly the radius. -/
theorem Square.sq_ring_succ_spec (r : ℕ) :
    ∃ s, Square.ring (r + 1) = some s ∧ ∀ c ∈ s, Square.chebNorm c = r + 1 := by
  have hfind : List.findIdx (fun a => a = Square.Axes.Y) Square.AXES = 1 := by decide
  have hw1 : Utils.ringWalk (fun c => Square.move_on_axis c .Y false)
      ⟨(↑(r + 1) : ℤ), -(↑(r + 1) : ℤ)⟩ (2 * (r + 1) + 1)
      ⟨(↑(r + 1) : ℤ), (↑(r + 1) : ℤ)⟩
      ∅ =
      some ((Finset.range (2 * r + 1 + 1)).image (fun i : ℕ => ⟨(↑(r + 1) : ℤ), (↑(r + 1) : ℤ) - (i : ℤ)⟩)) := by
    rw [Utils.ringWalk_eq _ _ (2 * r + 1) _ _ _
      (by rw [Square.moveY_neg_iterate]
          simp only [Square.Coord.mk.injEq, true_and]
          omega)
      (fun i hi => by
          rw [Square.moveY_neg_iterate]
          simp only [ne_eq, Square.Coord.mk.injEq, true_and]
          omega)
      (by omega)]
    simp only [Square.moveY_neg_iterate, Finset.empty_union]
  have hw2 : Utils.ringWalk (fun c => Square.move_on_axis c .X false)
      ⟨-(↑(r + 1) : ℤ), -(↑(r + 1) : ℤ)⟩ (2 * (r + 1) + 1)
      ⟨(↑(r + 1) : ℤ), -(↑(r + 1) : ℤ)⟩
      ((Finset.range (2 * r + 1 + 1)).image (fun i : ℕ => ⟨(↑(r + 1) : ℤ), (↑(r + 1) : ℤ) - (i : ℤ)⟩)) =
      some (((Finset.range (2 * r + 1 + 1)).image (fun i : ℕ => ⟨(↑(r + 1) : ℤ), (↑(r + 1) : ℤ) - (i : ℤ)⟩)) ∪
        ((Finset.range (2 * r + 1 + 1)).image (fun i : ℕ => ⟨(↑(r + 1) : ℤ) - (i : ℤ), -(↑(r + 1) : ℤ)⟩))) := by
    rw [Utils.ringWalk_eq _ _ (2 * r + 1) _ _ _
      (by rw [Square.moveX_neg_iterate]
          simp only [Square.Coord.mk.injEq, and_true]
          omega)
      (fun i hi => by
          rw [Square.moveX_neg_iterate]
          simp only [ne_eq, Square.Coord.mk.injEq, and_true]
          omega)
      (by omega)]
    simp only [Square.moveX_neg_iterate, Finset.empty_union]
  have hw3 : Utils.ringWalk (fun c => Square.move_on_axis c .Y true)
      ⟨-(↑(r + 1) : ℤ), (↑(r + 1) : ℤ)⟩ (2 * (r + 1) + 1)
      ⟨-(↑(r + 1) : ℤ), -(↑(r + 1) : ℤ)⟩
      (((Finset.range (2 * r + 1 + 1)).image (fun i : ℕ => ⟨(↑(r + 1) : ℤ), (↑(r + 1) : ℤ) - (i : ℤ)⟩)) ∪
        ((Finset.range (2 * r + 1 + 1)).image (fun i : ℕ => ⟨(↑(r + 1) : ℤ) - (i : ℤ), -(↑(r + 1) : ℤ)⟩))) =
      some ((((Finset.range (2 * r + 1 + 1)).image (fun i : ℕ => ⟨(↑(r + 1) : ℤ), (↑(r + 1) : ℤ) - (i : ℤ)⟩)) ∪
        ((Finset.range (2 * r + 1 + 1)).image (fun i : ℕ => ⟨(↑(r + 1) : ℤ) - (i : ℤ), -(↑(r + 1) : ℤ)⟩))) ∪
        ((Finset.range (2 * r + 1 + 1)).image (fun i : ℕ => ⟨-(↑(r + 1) : ℤ), -(↑(r + 1) : ℤ) + (i : ℤ)⟩))) := by
    rw [Utils.ringWalk_eq _ _ (2 * r + 1) _ _ _
      (by rw [Square.moveY_pos_iterate]
          simp only [Square.Coord.mk.injEq, true_and]
          omega)
      (fun i hi => by
          rw [Square.moveY_pos_iterate]
          simp only [ne_eq, Square.Coord.mk.injEq, true_and]
          omega)
      (by omega)]
    simp only [Square.moveY_pos_iterate, Finset.empty_union]
  have hw4 : Utils.ringWalk (fun c => Square.move_on_axis c .X true)
      ⟨(↑(r + 1) : ℤ), (↑(r + 1) : ℤ)⟩ (2 * (r + 1) + 1)
      ⟨-(↑(r + 1) : ℤ), (↑(r + 1) : ℤ)⟩
      ((((Finset.range (2 * r + 1 + 1)).image (fun i : ℕ => ⟨(↑(r + 1) : ℤ), (↑(r + 1) : ℤ) - (i : ℤ)⟩)) ∪
        ((Finset.range (2 * r + 1 + 1)).image (fun i : ℕ => ⟨(↑(r + 1) : ℤ) - (i : ℤ), -(↑(r + 1) : ℤ)⟩))) ∪
        ((Finset.range (2 * r + 1 + 1)).image (fun i : ℕ => ⟨-(↑(r + 1) : ℤ), -(↑(r + 1) : ℤ) + (i : ℤ)⟩))) =
      some (((((Finset.range (2 * r + 1 + 1)).image (fun i : ℕ => ⟨(↑(r + 1) : ℤ), (↑(r + 1) : ℤ) - (i : ℤ)⟩)) ∪
        ((Finset.range (2 * r + 1 + 1)).image (fun i : ℕ => ⟨(↑(r + 1) : ℤ) - (i : ℤ), -(↑(r + 1) : ℤ)⟩))) ∪
        ((Finset.range (2 * r + 1 + 1)).image (fun i : ℕ => ⟨-(↑(r + 1) : ℤ), -(↑(r + 1) : ℤ) + (i : ℤ)⟩))) ∪
        ((Finset.range (2 * r + 1 + 1)).image (fun i : ℕ => ⟨-(↑(r + 1) : ℤ) + (i : ℤ), (↑(r + 1) : ℤ)⟩))) := by
    rw [Utils.ringWalk_eq _ _ (2 * r + 1) _ _ _
      (by rw [Square.moveX_pos_iterate]
          simp only [Square.Coord.mk.injEq, and_true]
          omega)
      (fun i hi => by
          rw [Square.moveX_pos_iterate]
          simp only [ne_eq, Square.Coord.mk.injEq, and_true]
          omega)
      (by omega)]
    simp only [Square.moveX_pos_iterate, Finset.empty_union]
  have hne1 : (⟨(↑(r + 1) : ℤ), -(↑(r + 1) : ℤ)⟩ : Square.Coord) ≠ ⟨(↑(r + 1) : ℤ), (↑(r + 1) : ℤ)⟩ := by
    simp only [ne_eq, Square.Coord.mk.injEq, true_and]
    omega
  have hne2 : (⟨-(↑(r + 1) : ℤ), -(↑(r + 1) : ℤ)⟩ : Square.Coord) ≠ ⟨(↑(r + 1) : ℤ), (↑(r + 1) : ℤ)⟩ := by
    simp only [ne_eq, Square.Coord.mk.injEq]
    omega
  have hne3 : (⟨-(↑(r + 1) : ℤ), (↑(r + 1) : ℤ)⟩ : Square.Coord) ≠ ⟨(↑(r + 1) : ℤ), (↑(r + 1) : ℤ)⟩ := by
    simp only [ne_eq, Square.Coord.mk.injEq, and_true]
    omega
  rw [Square.ring, if_neg (by omega : ¬ r + 1 = 0), Utils.ring, hfind]
  simp only [Utils.ringLoop, Nat.reduceAdd, Square.cgS1, Square.cgS2, Square.cgS3,
    Square.cgS4, Square.cgS5, Square.sq_ops_move, Square.sq_ops_ccw,
    CoordOps.rotate_neg_one, Square.rotate_counterclockwise, reduceCtorEq,
    reduceIte, Bool.not_false, neg_neg, hw1, if_neg hne1, hw2, if_neg hne2,
    hw3, if_neg hne3, hw4]
  refine ⟨_, rfl, ?_⟩
  intro c hc
  simp only [Finset.mem_union, Finset.mem_image, Finset.mem_range] at hc
  rcases hc with (((⟨i, hi, rfl⟩ | ⟨i, hi, rfl⟩) | ⟨i, hi, rfl⟩) | ⟨i, hi, rfl⟩) <;>
    simp only [Square.chebNorm] <;> omega

theorem Hex.hx_ops_move : Hex.ops.move_on_axis = Hex.move_on_axis := rfl

theorem Hex.hx_ops_ccw :
    Hex.ops.rotate_counterclockwise = Hex.rotate_counterclockwise := rfl

theorem Hex.cgH0 : Utils.cycleGet Hex.AXES Hex.Axes.Q 0 = Hex.Axes.Q := rfl

theorem Hex.cgH1 : Utils.cycleGet Hex.AXES Hex.Axes.Q 1 = Hex.Axes.R := rfl

theorem Hex.cgH2 : Utils.cycleGet Hex.AXES Hex.Axes.Q 2 = Hex.Axes.S := rfl

theorem Hex.cgH3 : Utils.cycleGet Hex.AXES Hex.Axes.Q 3 = Hex.Axes.Q := rfl

theorem Hex.cgH4 : Utils.cycleGet Hex.AXES Hex.Axes.Q 4 = Hex.Axes.R := rfl

theorem Hex.cgH5 : Utils.cycleGet Hex.AXES Hex.Axes.Q 5 = Hex.Axes.S := rfl

theorem Hex.cgH6 : Utils.cycleGet Hex.AXES Hex.Axes.Q 6 = Hex.Axes.Q := rfl

theorem Hex.moveQ_neg_iterate (i : ℕ) (a : Hex.Coord) :
    (fun c => Hex.move_on_axis c .Q false)^[i] a = ⟨a.q, a.r - (i : ℤ)⟩ := by
  induction i with
  | zero => simp
  | succ i ih =>
    rw [Function.iterate_succ_apply', ih]
    simp [Hex.move_on_axis, Hex.offset_on_axis, Hex.offset_in_direction, Hex.add]
    omega

theorem Hex.moveR_neg_iterate (i : ℕ) (a : Hex.Coord) :
    (fun c => Hex.move_on_axis c .R false)^[i] a = ⟨a.q - (i : ℤ), a.r⟩ := by
  induction i with
  | zero => simp
  | succ i ih =>
    rw [Function.iterate_succ_apply', ih]
    simp [Hex.move_on_axis, Hex.offset_on_axis, Hex.offset_in_direction, Hex.add]
    omega

theorem Hex.moveS_neg_iterate (i : ℕ) (a : Hex.Coord) :
    (fun c => Hex.move_on_axis c .S false)^[i] a = ⟨a.q - (i : ℤ), a.r + (i : ℤ)⟩ := by
  induction i with
  | zero => simp
  | succ i ih =>
    rw [Function.iterate_succ_apply', ih]
    simp [Hex.move_on_axis, Hex.offset_on_axis, Hex.offset_in_direction, Hex.add]
    omega

theorem Hex.moveQ_pos_iterate (i : ℕ) (a : Hex.Coord) :
    (fun c => Hex.move_on_axis c .Q true)^[i] a = ⟨a.q, a.r + (i : ℤ)⟩ := by
  induction i with
  | zero => simp
  | succ i ih =>
    rw [Function.iterate_succ_apply', ih]
    simp [Hex.move_on_axis, Hex.offset_on_axis, Hex.offset_in_direction, Hex.add]
    omega

theorem Hex.moveR_pos_iterate (i : ℕ) (a : Hex.Coord) :
    (fun c => Hex.move_on_axis c .R true)^[i] a = ⟨a.q + (i : ℤ), a.r⟩ := by
  induction i with
  | zero => simp
  | succ i ih =>
    rw [Function.iterate_succ_apply', ih]
    simp [Hex.move_on_axis, Hex.offset_on_axis, Hex.offset_in_direction, Hex.add]
    omega

theorem Hex.moveS_pos_iterate (i : ℕ) (a : Hex.Coord) :
    (fun c => Hex.move_on_axis c .S true)^[i] a = ⟨a.q + (i : ℤ), a.r - (i : ℤ)⟩ := by
  induction i with
  | zero => simp
  | succ i ih =>
    rw [Function.iterate_succ_apply', ih]
    simp [Hex.move_on_axis, Hex.offset_on_axis, Hex.offset_in_direction, Hex.add]
    omega

/-- Evaluation of `Hex.ring` at a positive radius: the loop terminates and
every produced coordinate has hex norm exactly the radius. -/
theorem Hex.hx_ring_succ_spec (r : ℕ) :
    ∃ s, Hex.ring (r + 1) = some s ∧ ∀ c ∈ s, Hex.hexNorm c = r + 1 := by
  have hfind : List.findIdx (fun a => a = Hex.Axes.Q) Hex.AXES = 0 := by decide
  have hr1 : Hex.rotate_counterclockwise ⟨(↑(r + 1) : ℤ), 0⟩ = ⟨(↑(r + 1) : ℤ), -(↑(r + 1) : ℤ)⟩ := by
    simp only [Hex.rotate_counterclockwise, Hex.to_cubical, Hex.from_cubical,
      Hex.Coord.mk.injEq]
    constructor <;> ring_nf
  have hr2 : Hex.rotate_counterclockwise ⟨(↑(r + 1) : ℤ), -(↑(r + 1) : ℤ)⟩ = ⟨0, -(↑(r + 1) : ℤ)⟩ := by
    simp only [Hex.rotate_counterclockwise, Hex.to_cubical, Hex.from_cubical,
      Hex.Coord.mk.injEq]
    constructor <;> ring_nf
  have hr3 : Hex.rotate_counterclockwise ⟨0, -(↑(r + 1) : ℤ)⟩ = ⟨-(↑(r + 1) : ℤ), 0⟩ := by
    simp only [Hex.rotate_counterclockwise, Hex.to_cubical, Hex.from_cubical,
      Hex.Coord.mk.injEq]
    constructor <;> ring_nf
  have hr4 : Hex.rotate_counterclockwise ⟨-(↑(r + 1) : ℤ), 0⟩ = ⟨-(↑(r + 1) : ℤ), (↑(r + 1) : ℤ)⟩ := by
    simp only [Hex.rotate_counterclockwise, Hex.to_cubical, Hex.from_cubical,
      Hex.Coord.mk.injEq]
    constructor <;> ring_nf
  have hr5 : Hex.rotate_counterclockwise ⟨-(↑(r + 1) : ℤ), (↑(r + 1) : ℤ)⟩ = ⟨0, (↑(r + 1) : ℤ)⟩ := by
    simp only [Hex.rotate_counterclockwise, Hex.to_cubical, Hex.from_cubical,
      Hex.Coord.mk.injEq]
    constructor <;> ring_nf
  have hr6 : Hex.rotate_counterclockwise ⟨0, (↑(r + 1) : ℤ)⟩ = ⟨(↑(r + 1) : ℤ), 0⟩ := by
    simp only [Hex.rotate_counterclockwise, Hex.to_cubical, Hex.from_cubical,
      Hex.Coord.mk.injEq]
    constructor <;> ring_nf
  have hw1 : Utils.ringWalk (fun c => Hex.move_on_axis c .Q false)
      ⟨(↑(r + 1) : ℤ), -(↑(r + 1) : ℤ)⟩ (r + 1 + 1)
      ⟨(↑(r + 1) : ℤ), 0⟩
      ∅ =
      some ((Finset.range (r + 1)).image (fun i : ℕ => ⟨(↑(r + 1) : ℤ), 0 - (i : ℤ)⟩)) := by
    rw [Utils.ringWalk_eq _ _ r _ _ _
      (by rw [Hex.moveQ_neg_iterate]
          simp only [Hex.Coord.mk.injEq, true_and, and_true]
          omega)
      (fun i hi => by
          rw [Hex.moveQ_neg_iterate]
          simp only [ne_eq, Hex.Coord.mk.injEq, true_and, and_true, not_and]
          intro h1
          omega)
      (by omega)]
    simp only [Hex.moveQ_neg_iterate, Finset.empty_union]
  have hw2 : Utils.ringWalk (fun c => Hex.move_on_axis c .R false)
      ⟨0, -(↑(r + 1) : ℤ)⟩ (r + 1 + 1)
      ⟨(↑(r + 1) : ℤ), -(↑(r + 1) : ℤ)⟩
      ((Finset.range (r + 1)).image (fun i : ℕ => ⟨(↑(r + 1) : ℤ), 0 - (i : ℤ)⟩)) =
      some (((Finset.range (r + 1)).image (fun i : ℕ => ⟨(↑(r + 1) : ℤ), 0 - (i : ℤ)⟩)) ∪
        ((Finset.range (r + 1)).image (fun i : ℕ => ⟨(↑(r + 1) : ℤ) - (i : ℤ), -(↑(r + 1) : ℤ)⟩))) := by
    rw [Utils.ringWalk_eq _ _ r _ _ _
      (by rw [Hex.moveR_neg_iterate]
          simp only [Hex.Coord.mk.injEq, true_and, and_true]
          omega)
      (fun i hi => by
          rw [Hex.moveR_neg_iterate]
          simp only [ne_eq, Hex.Coord.mk.injEq, true_and, and_true, not_and]
          intro h1
          omega)
      (by omega)]
    simp only [Hex.moveR_neg_iterate, Finset.empty_union]
  have hw3 : Utils.ringWalk (fun c => Hex.move_on_axis c .S false)
      ⟨-(↑(r + 1) : ℤ), 0⟩ (r + 1 + 1)
      ⟨0, -(↑(r + 1) : ℤ)⟩
      (((Finset.range (r + 1)).image (fun i : ℕ => ⟨(↑(r + 1) : ℤ), 0 - (i : ℤ)⟩)) ∪
        ((Finset.range (r + 1)).image (fun i : ℕ => ⟨(↑(r + 1) : ℤ) - (i : ℤ), -(↑(r + 1) : ℤ)⟩))) =
      some ((((Finset.range (r + 1)).image (fun i : ℕ => ⟨(↑(r + 1) : ℤ), 0 - (i : ℤ)⟩)) ∪
        ((Finset.range (r + 1)).image (fun i : ℕ => ⟨(↑(r + 1) : ℤ) - (i : ℤ), -(↑(r + 1) : ℤ)⟩))) ∪
        ((Finset.range (r + 1)).image (fun i : ℕ => ⟨0 - (i : ℤ), -(↑(r + 1) : ℤ) + (i : ℤ)⟩))) := by
    rw [Utils.ringWalk_eq _ _ r _ _ _
      (by rw [Hex.moveS_neg_iterate]
          simp only [Hex.Coord.mk.injEq, true_and, and_true]
          omega)
      (fun i hi => by
          rw [Hex.moveS_neg_iterate]
          simp only [ne_eq, Hex.Coord.mk.injEq, true_and, and_true, not_and]
          intro h1
          omega)
      (by omega)]
    simp only [Hex.moveS_neg_iterate, Finset.empty_union]
  have hw4 : Utils.ringWalk (fun c => Hex.move_on_axis c .Q true)
      ⟨-(↑(r + 1) : ℤ), (↑(r + 1) : ℤ)⟩ (r + 1 + 1)
      ⟨-(↑(r + 1) : ℤ), 0⟩
      ((((Finset.range (r + 1)).image (fun i : ℕ => ⟨(↑(r + 1) : ℤ), 0 - (i : ℤ)⟩)) ∪
        ((Finset.range (r + 1)).image (fun i : ℕ => ⟨(↑(r + 1) : ℤ) - (i : ℤ), -(↑(r + 1) : ℤ)⟩))) ∪
        ((Finset.range (r + 1)).image (fun i : ℕ => ⟨0 - (i : ℤ), -(↑(r + 1) : ℤ) + (i : ℤ)⟩))) =
      some (((((Finset.range (r + 1)).image (fun i : ℕ => ⟨(↑(r + 1) : ℤ), 0 - (i : ℤ)⟩)) ∪
        ((Finset.range (r + 1)).image (fun i : ℕ => ⟨(↑(r + 1) : ℤ) - (i : ℤ), -(↑(r + 1) : ℤ)⟩))) ∪
        ((Finset.range (r + 1)).image (fun i : ℕ => ⟨0 - (i : ℤ), -(↑(r + 1) : ℤ) + (i : ℤ)⟩))) ∪
        ((Finset.range (r + 1)).image (fun i : ℕ => ⟨-(↑(r + 1) : ℤ), 0 + (i : ℤ)⟩))) := by
    rw [Utils.ringWalk_eq _ _ r _ _ _
      (by rw [Hex.moveQ_pos_iterate]
          simp only [Hex.Coord.mk.injEq, true_and, and_true]
          omega)
      (fun i hi => by
          rw [Hex.moveQ_pos_iterate]
          simp only [ne_eq, Hex.Coord.mk.injEq, true_and, and_true, not_and]
          intro h1
          omega)
      (by omega)]
    simp only [Hex.moveQ_pos_iterate, Finset.empty_union]
  have hw5 : Utils.ringWalk (fun c => Hex.move_on_axis c .R true)
      ⟨0, (↑(r + 1) : ℤ)⟩ (r + 1 + 1)
      ⟨-(↑(r + 1) : ℤ), (↑(r + 1) : ℤ)⟩
      (((((Finset.range (r + 1)).image (fun i : ℕ => ⟨(↑(r + 1) : ℤ), 0 - (i : ℤ)⟩)) ∪
        ((Finset.range (r + 1)).image (fun i : ℕ => ⟨(↑(r + 1) : ℤ) - (i : ℤ), -(↑(r + 1) : ℤ)⟩))) ∪
        ((Finset.range (r + 1)).image (fun i : ℕ => ⟨0 - (i : ℤ), -(↑(r + 1) : ℤ) + (i : ℤ)⟩))) ∪
        ((Finset.range (r + 1)).image (fun i : ℕ => ⟨-(↑(r + 1) : ℤ), 0 + (i : ℤ)⟩))) =
      some ((((((Finset.range (r + 1)).image (fun i : ℕ => ⟨(↑(r + 1) : ℤ), 0 - (i : ℤ)⟩)) ∪
        ((Finset.range (r + 1)).image (fun i : ℕ => ⟨(↑(r + 1) : ℤ) - (i : ℤ), -(↑(r + 1) : ℤ)⟩))) ∪
        ((Finset.range (r + 1)).image (fun i : ℕ => ⟨0 - (i : ℤ), -(↑(r + 1) : ℤ) + (i : ℤ)⟩))) ∪
        ((Finset.range (r + 1)).image (fun i : ℕ => ⟨-(↑(r + 1) : ℤ), 0 + (i : ℤ)⟩))) ∪
        ((Finset.range (r + 1)).image (fun i : ℕ => ⟨-(↑(r + 1) : ℤ) + (i : ℤ), (↑(r + 1) : ℤ)⟩))) := by
    rw [Utils.ringWalk_eq _ _ r _ _ _
      (by rw [Hex.moveR_pos_iterate]
          simp only [Hex.Coord.mk.injEq, true_and, and_true]
          omega)
      (fun i hi => by
          rw [Hex.moveR_pos_iterate]
          simp only [ne_eq, Hex.Coord.mk.injEq, true_and, and_true, not_and]
          intro h1
          omega)
      (by omega)]
    simp only [Hex.moveR_pos_iterate, Finset.empty_union]
  have hw6 : Utils.ringWalk (fun c => Hex.move_on_axis c .S true)
      ⟨(↑(r + 1) : ℤ), 0⟩ (r + 1 + 1)
      ⟨0, (↑(r + 1) : ℤ)⟩
      ((((((Finset.range (r + 1)).image (fun i : ℕ => ⟨(↑(r + 1) : ℤ), 0 - (i : ℤ)⟩)) ∪
        ((Finset.range (r + 1)).image (fun i : ℕ => ⟨(↑(r + 1) : ℤ) - (i : ℤ), -(↑(r + 1) : ℤ)⟩))) ∪
        ((Finset.range (r + 1)).image (fun i : ℕ => ⟨0 - (i : ℤ), -(↑(r + 1) : ℤ) + (i : ℤ)⟩))) ∪
        ((Finset.range (r + 1)).image (fun i : ℕ => ⟨-(↑(r + 1) : ℤ), 0 + (i : ℤ)⟩))) ∪
        ((Finset.range (r + 1)).image (fun i : ℕ => ⟨-(↑(r + 1) : ℤ) + (i : ℤ), (↑(r + 1) : ℤ)⟩))) =
      some (((((((Finset.range (r + 1)).image (fun i : ℕ => ⟨(↑(r + 1) : ℤ), 0 - (i : ℤ)⟩)) ∪
        ((Finset.range (r + 1)).image (fun i : ℕ => ⟨(↑(r + 1) : ℤ) - (i : ℤ), -(↑(r + 1) : ℤ)⟩))) ∪
        ((Finset.range (r + 1)).image (fun i : ℕ => ⟨0 - (i : ℤ), -(↑(r + 1) : ℤ) + (i : ℤ)⟩))) ∪
        ((Finset.range (r + 1)).image (fun i : ℕ => ⟨-(↑(r + 1) : ℤ), 0 + (i : ℤ)⟩))) ∪
        ((Finset.range (r + 1)).image (fun i : ℕ => ⟨-(↑(r + 1) : ℤ) + (i : ℤ), (↑(r + 1) : ℤ)⟩))) ∪
        ((Finset.range (r + 1)).image (fun i : ℕ => ⟨0 + (i : ℤ), (↑(r + 1) : ℤ) - (i : ℤ)⟩))) := by
    rw [Utils.ringWalk_eq _ _ r _ _ _
      (by rw [Hex.moveS_pos_iterate]
          simp only [Hex.Coord.mk.injEq, true_and, and_true]
          omega)
      (fun i hi => by
          rw [Hex.moveS_pos_iterate]
          simp only [ne_eq, Hex.Coord.mk.injEq, true_and, and_true, not_and]
          intro h1
          omega)
      (by omega)]
    simp only [Hex.moveS_pos_iterate, Finset.empty_union]
  have hne1 : (⟨(↑(r + 1) : ℤ), -(↑(r + 1) : ℤ)⟩ : Hex.Coord) ≠ ⟨(↑(r + 1) : ℤ), 0⟩ := by
    simp only [ne_eq, Hex.Coord.mk.injEq, not_and]
    intro h1
    omega
  have hne2 : (⟨0, -(↑(r + 1) : ℤ)⟩ : Hex.Coord) ≠ ⟨(↑(r + 1) : ℤ), 0⟩ := by
    simp only [ne_eq, Hex.Coord.mk.injEq, not_and]
    intro h1
    omega
  have hne3 : (⟨-(↑(r + 1) : ℤ), 0⟩ : Hex.Coord) ≠ ⟨(↑(r + 1) : ℤ), 0⟩ := by
    simp only [ne_eq, Hex.Coord.mk.injEq, not_and]
    intro h1
    omega
  have hne4 : (⟨-(↑(r + 1) : ℤ), (↑(r + 1) : ℤ)⟩ : Hex.Coord) ≠ ⟨(↑(r + 1) : ℤ), 0⟩ := by
    simp only [ne_eq, Hex.Coord.mk.injEq, not_and]
    intro h1
    omega
  have hne5 : (⟨0, (↑(r + 1) : ℤ)⟩ : Hex.Coord) ≠ ⟨(↑(r + 1) : ℤ), 0⟩ := by
    simp only [ne_eq, Hex.Coord.mk.injEq, not_and]
    intro h1
    omega
  rw [Hex.ring, if_neg (by omega : ¬ r + 1 = 0), Utils.ring, hfind]
  simp only [Utils.ringLoop, Nat.reduceAdd, Hex.cgH0, Hex.cgH1, Hex.cgH2, Hex.cgH3,
    Hex.cgH4, Hex.cgH5, Hex.cgH6, Hex.hx_ops_move, Hex.hx_ops_ccw,
    CoordOps.rotate_neg_one, hr1, hr2, hr3, hr4, hr5, hr6, reduceCtorEq,
    reduceIte, Bool.not_false, hw1, if_neg hne1, hw2, if_neg hne2, hw3,
    if_neg hne3, hw4, if_neg hne4, hw5, if_neg hne5, hw6]
  refine ⟨_, rfl, ?_⟩
  intro c hc
  simp only [Finset.mem_union, Finset.mem_image, Finset.mem_range] at hc
  rcases hc with (((((⟨i, hi, rfl⟩ | ⟨i, hi, rfl⟩) | ⟨i, hi, rfl⟩) | ⟨i, hi, rfl⟩) |
    ⟨i, hi, rfl⟩) | ⟨i, hi, rfl⟩) <;>
    simp only [Hex.hexNorm] <;> omega

theorem Triangle.moveB_neg_iterate (i : ℕ) (x0 y0 : ℤ) :
    (fun c => Triangle.move_on_axis c .B false)^[i] ⟨x0, y0, .Down⟩ =
      ⟨x0 - (↑(i / 2) : ℤ), y0, if i % 2 = 0 then .Down else .Up⟩ := by
  induction i with
  | zero => simp
  | succ i ih =>
    rw [Function.iterate_succ_apply', ih]
    rcases Nat.even_or_odd i with h | h
    · have h0 : i % 2 = 0 := Nat.even_iff.mp h
      have h1 : (i + 1) % 2 = 1 := by omega
      have h2 : (i + 1) / 2 = i / 2 := by omega
      rw [h0, h1, h2]
      simp [Triangle.move_on_axis, Triangle.TrianglePoint.opposite]
    · have h0 : i % 2 = 1 := Nat.odd_iff.mp h
      have h1 : (i + 1) % 2 = 0 := by omega
      have h2 : (i + 1) / 2 = i / 2 + 1 := by omega
      rw [h0, h1, h2]
      simp [Triangle.move_on_axis, Triangle.TrianglePoint.opposite,
        Triangle.Coord.mk.injEq]
      omega

theorem Triangle.moveC_neg_iterate (i : ℕ) (x0 y0 : ℤ) :
    (fun c => Triangle.move_on_axis c .C false)^[i] ⟨x0, y0, .Down⟩ =
      ⟨x0 + (↑((i + 1) / 2) : ℤ), y0 - (↑(i / 2) : ℤ),
        if i % 2 = 0 then .Down else .Up⟩ := by
  induction i with
  | zero => simp
  | succ i ih =>
    rw [Function.iterate_succ_apply', ih]
    rcases Nat.even_or_odd i with h | h
    · have h0 : i % 2 = 0 := Nat.even_iff.mp h
      have h1 : (i + 1) % 2 = 1 := by omega
      have h2 : (i + 1) / 2 = i / 2 := by omega
      have h3 : (i + 1 + 1) / 2 = (i + 1) / 2 + 1 := by omega
      rw [h0, h1, h3, h2]
      simp [Triangle.move_on_axis, Triangle.TrianglePoint.opposite,
        Triangle.Coord.mk.injEq]
      omega
    · have h0 : i % 2 = 1 := Nat.odd_iff.mp h
      have h1 : (i + 1) % 2 = 0 := by omega
      have h2 : (i + 1 + 1) / 2 = (i + 1) / 2 := by omega
      have h3 : (i + 1) / 2 = i / 2 + 1 := by omega
      rw [h0, h1, h2, h3]
      simp [Triangle.move_on_axis, Triangle.TrianglePoint.opposite,
        Triangle.Coord.mk.injEq]
      omega

theorem Triangle.moveA_pos_iterate (i : ℕ) (x0 y0 : ℤ) :
    (fun c => Triangle.move_on_axis c .A true)^[i] ⟨x0, y0, .Down⟩ =
      ⟨x0, y0 + (↑((i + 1) / 2) : ℤ), if i % 2 = 0 then .Down else .Up⟩ := by
  induction i with
  | zero => simp
  | succ i ih =>
    rw [Function.iterate_succ_apply', ih]
    rcases Nat.even_or_odd i with h | h
    · have h0 : i % 2 = 0 := Nat.even_iff.mp h
      have h1 : (i + 1) % 2 = 1 := by omega
      have h2 : (i + 1 + 1) / 2 = (i + 1) / 2 + 1 := by omega
      have h3 : (i + 1) / 2 = i / 2 := by omega
      rw [h0, h1, h2, h3]
      simp [Triangle.move_on_axis, Triangle.TrianglePoint.opposite,
        Triangle.Coord.mk.injEq]
      omega
    · have h0 : i % 2 = 1 := Nat.odd_iff.mp h
      have h1 : (i + 1) % 2 = 0 := by omega
      have h2 : (i + 1 + 1) / 2 = (i + 1) / 2 := by omega
      rw [h0, h1, h2]
      simp [Triangle.move_on_axis, Triangle.TrianglePoint.opposite]


theorem Triangle.tr_ops_move : Triangle.ops.move_on_axis = Triangle.move_on_axis := rfl

theorem Triangle.tr_ops_cw :
    Triangle.ops.rotate_clockwise = Triangle.rotate_clockwise := rfl

theorem Triangle.cgT1 : Utils.cycleGet Triangle.AXES Triangle.Axes.B 1 = Triangle.Axes.B := rfl

theorem Triangle.cgT2 : Utils.cycleGet Triangle.AXES Triangle.Axes.B 2 = Triangle.Axes.C := rfl

theorem Triangle.cgT3 : Utils.cycleGet Triangle.AXES Triangle.Axes.B 3 = Triangle.Axes.A := rfl

theorem Triangle.cgT4 : Utils.cycleGet Triangle.AXES Triangle.Axes.B 4 = Triangle.Axes.B := rfl

/-- Evaluation of `Triangle.ring` at a radius at least 2: the loop
terminates and every produced coordinate has ring index exactly the
radius. -/
theorem Triangle.ring_two_add_spec (r : ℕ) :
    ∃ s, Triangle.ring (r + 2) = some s ∧
      ∀ c ∈ s, Triangle.ringIdx c = (↑(r + 2) : ℤ) := by
  have hfind : List.findIdx (fun a => a = Triangle.Axes.B) Triangle.AXES = 1 := by
    decide
  have hr1 : Triangle.rotate_clockwise ⟨(↑(r + 2) : ℤ) - 1, (↑(r + 2) : ℤ) - 1, .Down⟩ = ⟨1 - 2 * (↑(r + 2) : ℤ), (↑(r + 2) : ℤ) - 1, .Down⟩ := by
    simp only [Triangle.rotate_clockwise, Triangle.cubical_offset,
      Triangle.to_cubical, Triangle.from_cubical, Triangle.Coord.mk.injEq]
    split_ifs with h
    · exfalso
      omega
    · refine ⟨by omega, by omega, rfl⟩
  have hr2 : Triangle.rotate_clockwise ⟨1 - 2 * (↑(r + 2) : ℤ), (↑(r + 2) : ℤ) - 1, .Down⟩ = ⟨(↑(r + 2) : ℤ) - 1, 1 - 2 * (↑(r + 2) : ℤ), .Down⟩ := by
    simp only [Triangle.rotate_clockwise, Triangle.cubical_offset,
      Triangle.to_cubical, Triangle.from_cubical, Triangle.Coord.mk.injEq]
    split_ifs with h
    · exfalso
      omega
    · refine ⟨by omega, by omega, rfl⟩
  have hr3 : Triangle.rotate_clockwise ⟨(↑(r + 2) : ℤ) - 1, 1 - 2 * (↑(r + 2) : ℤ), .Down⟩ = ⟨(↑(r + 2) : ℤ) - 1, (↑(r + 2) : ℤ) - 1, .Down⟩ := by
    simp only [Triangle.rotate_clockwise, Triangle.cubical_offset,
      Triangle.to_cubical, Triangle.from_cubical, Triangle.Coord.mk.injEq]
    split_ifs with h
    · exfalso
      omega
    · refine ⟨by omega, by omega, rfl⟩
  have hw1 : Utils.ringWalk (fun c => Triangle.move_on_axis c .B false)
      ⟨1 - 2 * (↑(r + 2) : ℤ), (↑(r + 2) : ℤ) - 1, .Down⟩ (6 * (r + 2))
      ⟨(↑(r + 2) : ℤ) - 1, (↑(r + 2) : ℤ) - 1, .Down⟩
      ∅ =
      some ((Finset.range (6 * r + 7 + 1)).image
        (fun i : ℕ => ⟨(↑(r + 2) : ℤ) - 1 - (↑(i / 2) : ℤ), (↑(r + 2) : ℤ) - 1, if i % 2 = 0 then Triangle.TrianglePoint.Down else Triangle.TrianglePoint.Up⟩)) := by
    rw [Utils.ringWalk_eq _ _ (6 * r + 7) _ _ _
      (by rw [Triangle.moveB_neg_iterate]
          have hm : (6 * r + 7 + 1) % 2 = 0 := by omega
          have hd : (6 * r + 7 + 1) / 2 = 3 * r + 4 := by omega
          have hd2 : (6 * r + 7 + 1 + 1) / 2 = 3 * r + 4 := by omega
          rw [hm]
          try rw [hd]
          try rw [hd2]
          simp only [reduceIte, Triangle.Coord.mk.injEq, true_and, and_true]
          omega)
      (fun i hi => by
          rw [Triangle.moveB_neg_iterate]
          rcases Nat.even_or_odd i with hp | hp
          · have h0 : i % 2 = 0 := Nat.even_iff.mp hp
            simp only [h0, reduceIte, ne_eq, Triangle.Coord.mk.injEq,
              true_and, and_true]
            omega
          · have h0 : i % 2 = 1 := Nat.odd_iff.mp hp
            simp [h0])
      (by omega)]
    simp only [Triangle.moveB_neg_iterate, Finset.empty_union]
  have hw2 : Utils.ringWalk (fun c => Triangle.move_on_axis c .C false)
      ⟨(↑(r + 2) : ℤ) - 1, 1 - 2 * (↑(r + 2) : ℤ), .Down⟩ (6 * (r + 2))
      ⟨1 - 2 * (↑(r + 2) : ℤ), (↑(r + 2) : ℤ) - 1, .Down⟩
      ((Finset.range (6 * r + 7 + 1)).image
        (fun i : ℕ => ⟨(↑(r + 2) : ℤ) - 1 - (↑(i / 2) : ℤ), (↑(r + 2) : ℤ) - 1, if i % 2 = 0 then Triangle.TrianglePoint.Down else Triangle.TrianglePoint.Up⟩)) =
      some (((Finset.range (6 * r + 7 + 1)).image
        (fun i : ℕ => ⟨(↑(r + 2) : ℤ) - 1 - (↑(i / 2) : ℤ), (↑(r + 2) : ℤ) - 1, if i % 2 = 0 then Triangle.TrianglePoint.Down else Triangle.TrianglePoint.Up⟩)) ∪
        ((Finset.range (6 * r + 7 + 1)).image
        (fun i : ℕ => ⟨1 - 2 * (↑(r + 2) : ℤ) + (↑((i + 1) / 2) : ℤ), (↑(r + 2) : ℤ) - 1 - (↑(i / 2) : ℤ), if i % 2 = 0 then Triangle.TrianglePoint.Down else Triangle.TrianglePoint.Up⟩))) := by
    rw [Utils.ringWalk_eq _ _ (6 * r + 7) _ _ _
      (by rw [Triangle.moveC_neg_iterate]
          have hm : (6 * r + 7 + 1) % 2 = 0 := by omega
          have hd : (6 * r + 7 + 1) / 2 = 3 * r + 4 := by omega
          have hd2 : (6 * r + 7 + 1 + 1) / 2 = 3 * r + 4 := by omega
          rw [hm]
          try rw [hd]
          try rw [hd2]
          simp only [reduceIte, Triangle.Coord.mk.injEq, true_and, and_true]
          omega)
      (fun i hi => by
          rw [Triangle.moveC_neg_iterate]
          rcases Nat.even_or_odd i with hp | hp
          · have h0 : i % 2 = 0 := Nat.even_iff.mp hp
            simp only [h0, reduceIte, ne_eq, Triangle.Coord.mk.injEq,
              true_and, and_true]
            omega
          · have h0 : i % 2 = 1 := Nat.odd_iff.mp hp
            simp [h0])
      (by omega)]
    simp only [Triangle.moveC_neg_iterate, Finset.empty_union]
  have hw3 : Utils.ringWalk (fun c => Triangle.move_on_axis c .A true)
      ⟨(↑(r + 2) : ℤ) - 1, (↑(r + 2) : ℤ) - 1, .Down⟩ (6 * (r + 2))
      ⟨(↑(r + 2) : ℤ) - 1, 1 - 2 * (↑(r + 2) : ℤ), .Down⟩
      (((Finset.range (6 * r + 7 + 1)).image
        (fun i : ℕ => ⟨(↑(r + 2) : ℤ) - 1 - (↑(i / 2) : ℤ), (↑(r + 2) : ℤ) - 1, if i % 2 = 0 then Triangle.TrianglePoint.Down else Triangle.TrianglePoint.Up⟩)) ∪
        ((Finset.range (6 * r + 7 + 1)).image
        (fun i : ℕ => ⟨1 - 2 * (↑(r + 2) : ℤ) + (↑((i + 1) / 2) : ℤ), (↑(r + 2) : ℤ) - 1 - (↑(i / 2) : ℤ), if i % 2 = 0 then Triangle.TrianglePoint.Down else Triangle.TrianglePoint.Up⟩))) =
      some ((((Finset.range (6 * r + 7 + 1)).image
        (fun i : ℕ => ⟨(↑(r + 2) : ℤ) - 1 - (↑(i / 2) : ℤ), (↑(r + 2) : ℤ) - 1, if i % 2 = 0 then Triangle.TrianglePoint.Down else Triangle.TrianglePoint.Up⟩)) ∪
        ((Finset.range (6 * r + 7 + 1)).image
        (fun i : ℕ => ⟨1 - 2 * (↑(r + 2) : ℤ) + (↑((i + 1) / 2) : ℤ), (↑(r + 2) : ℤ) - 1 - (↑(i / 2) : ℤ), if i % 2 = 0 then Triangle.TrianglePoint.Down else Triangle.TrianglePoint.Up⟩))) ∪
        ((Finset.range (6 * r + 7 + 1)).image
        (fun i : ℕ => ⟨(↑(r + 2) : ℤ) - 1, 1 - 2 * (↑(r + 2) : ℤ) + (↑((i + 1) / 2) : ℤ), if i % 2 = 0 then Triangle.TrianglePoint.Down else Triangle.TrianglePoint.Up⟩))) := by
    rw [Utils.ringWalk_eq _ _ (6 * r + 7) _ _ _
      (by rw [Triangle.moveA_pos_iterate]
          have hm : (6 * r + 7 + 1) % 2 = 0 := by omega
          have hd : (6 * r + 7 + 1) / 2 = 3 * r + 4 := by omega
          have hd2 : (6 * r + 7 + 1 + 1) / 2 = 3 * r + 4 := by omega
          rw [hm]
          try rw [hd]
          try rw [hd2]
          simp only [reduceIte, Triangle.Coord.mk.injEq, true_and, and_true]
          omega)
      (fun i hi => by
          rw [Triangle.moveA_pos_iterate]
          rcases Nat.even_or_odd i with hp | hp
          · have h0 : i % 2 = 0 := Nat.even_iff.mp hp
            simp only [h0, reduceIte, ne_eq, Triangle.Coord.mk.injEq,
              true_and, and_true]
            omega
          · have h0 : i % 2 = 1 := Nat.odd_iff.mp hp
            simp [h0])
      (by omega)]
    simp only [Triangle.moveA_pos_iterate, Finset.empty_union]
  have hne1 : (⟨1 - 2 * (↑(r + 2) : ℤ), (↑(r + 2) : ℤ) - 1, .Down⟩ : Triangle.Coord) ≠ ⟨(↑(r + 2) : ℤ) - 1, (↑(r + 2) : ℤ) - 1, .Down⟩ := by
    simp only [ne_eq, Triangle.Coord.mk.injEq, and_true, true_and, not_and]
    intro h1
    omega
  have hne2 : (⟨(↑(r + 2) : ℤ) - 1, 1 - 2 * (↑(r + 2) : ℤ), .Down⟩ : Triangle.Coord) ≠ ⟨(↑(r + 2) : ℤ) - 1, (↑(r + 2) : ℤ) - 1, .Down⟩ := by
    simp only [ne_eq, Triangle.Coord.mk.injEq, and_true, true_and, not_and]
    intro h1
    omega
  rw [Triangle.ring, if_neg (by omega : ¬ r + 2 = 0),
    if_neg (by omega : ¬ r + 2 = 1), Utils.ring, hfind]
  simp only [Utils.ringLoop, Nat.reduceAdd, Triangle.cgT1, Triangle.cgT2,
    Triangle.cgT3, Triangle.cgT4, Triangle.tr_ops_move, Triangle.tr_ops_cw,
    CoordOps.rotate_one, hr1, hr2, hr3, reduceCtorEq, reduceIte,
    Bool.not_false, hw1, if_neg hne1, hw2, if_neg hne2, hw3]
  refine ⟨_, rfl, ?_⟩
  intro c hc
  simp only [Finset.mem_union, Finset.mem_image, Finset.mem_range] at hc
  rcases hc with ((⟨i, hi, rfl⟩ | ⟨i, hi, rfl⟩) | ⟨i, hi, rfl⟩) <;>
  · rcases Nat.even_or_odd i with h | h
    · have h0 : i % 2 = 0 := Nat.even_iff.mp h
      simp only [h0, reduceIte, Triangle.ringIdx, reduceCtorEq]
      omega
    · have h0 : i % 2 = 1 := Nat.odd_iff.mp h
      simp only [h0, reduceIte, Triangle.ringIdx, reduceCtorEq]
      split_ifs <;> omega

/-! # Assembly of the ring and range facts (claim C5) -/

theorem Square.sq_ring_zero : Square.ring 0 = some {⟨0, 0⟩} := rfl

theorem Hex.hx_ring_zero : Hex.ring 0 = some {⟨0, 0⟩} := rfl

theorem Triangle.tri_ring_zero : Triangle.ring 0 = some {⟨0, 0, .Up⟩} := rfl

theorem Triangle.ring_one :
    Triangle.ring 1 = some {⟨0, 0, .Down⟩, ⟨0, -1, .Down⟩, ⟨-1, 0, .Down⟩} := rfl

/-- Every triangle ring terminates and consists exactly of coordinates of
ring index equal to the radius. -/
theorem Triangle.ring_spec (ρ : ℕ) :
    ∃ s, Triangle.ring ρ = some s ∧
      ∀ c ∈ s, Triangle.ringIdx c = (ρ : ℤ) := by
  match ρ with
  | 0 =>
    refine ⟨{⟨0, 0, .Up⟩}, Triangle.tri_ring_zero, ?_⟩
    intro c hc
    rw [Finset.mem_singleton] at hc
    subst hc
    decide
  | 1 =>
    refine ⟨{⟨0, 0, .Down⟩, ⟨0, -1, .Down⟩, ⟨-1, 0, .Down⟩},
      Triangle.ring_one, ?_⟩
    intro c hc
    simp only [Finset.mem_insert, Finset.mem_singleton] at hc
    rcases hc with rfl | rfl | rfl <;> decide
  | (r + 2) => exact Triangle.ring_two_add_spec r

theorem Triangle.range_zero : Triangle.range 0 = some {⟨0, 0, .Up⟩} := by
  have h : Triangle.ring 0 = some {⟨0, 0, .Up⟩} := rfl
  simp [Triangle.range, List.range_succ, h]

theorem Triangle.range_succ (ρ : ℕ) :
    Triangle.range (ρ + 1) =
      (Triangle.range ρ).bind
        (fun s => (Triangle.ring (ρ + 1)).map (fun t => s ∪ t)) := by
  unfold Triangle.range
  rw [List.range_succ, List.foldl_append]
  simp

/-- Every triangle range terminates and consists of coordinates of ring
index at most the radius. -/
theorem Triangle.range_spec (ρ : ℕ) :
    ∃ t, Triangle.range ρ = some t ∧
      ∀ c ∈ t, Triangle.ringIdx c ≤ (ρ : ℤ) := by
  induction ρ with
  | zero =>
    refine ⟨{⟨0, 0, .Up⟩}, Triangle.range_zero, ?_⟩
    intro c hc
    rw [Finset.mem_singleton] at hc
    subst hc
    decide
  | succ ρ ih =>
    obtain ⟨t, ht, hidx⟩ := ih
    obtain ⟨s, hs, hsidx⟩ := Triangle.ring_spec (ρ + 1)
    refine ⟨t ∪ s, ?_, ?_⟩
    · rw [Triangle.range_succ, ht, hs]
      rfl
    · intro c hc
      rcases Finset.mem_union.mp hc with h | h
      · have := hidx c h
        push_cast
        push_cast at this
        omega
      · have := hsidx c h
        push_cast
        push_cast at this
        omega

theorem Square.mem_range_cheb (ρ : ℕ) (c : Square.Coord)
    (hc : c ∈ Square.range ρ) : Square.chebNorm c ≤ ρ := by
  simp only [Square.range, Finset.mem_image, Finset.mem_product,
    Finset.mem_Icc] at hc
  obtain ⟨⟨a, b⟩, ⟨⟨ha1, ha2⟩, hb1, hb2⟩, rfl⟩ := hc
  simp only [Square.chebNorm]
  omega

theorem Hex.mem_range_hexNorm (ρ : ℕ) (c : Hex.Coord)
    (hc : c ∈ Hex.range ρ) : Hex.hexNorm c ≤ ρ := by
  simp only [Hex.range, Finset.mem_image, Finset.mem_filter,
    Finset.mem_product, Finset.mem_Icc] at hc
  rcases hc with ⟨⟨q, r2, s⟩, hB, rfl⟩
  dsimp only at hB ⊢
  simp only [Hex.hexNorm, Hex.from_cubical]
  omega

/-- Claim C5: for each topology, `ring 0` is the single-element shape holding
the topology's origin coordinate, and for every radius `r ≥ 0` the shapes
`range r` and `ring (r + 1)` are disjoint.  The ring construction is embedded
with fuel, so the equalities `ring (r + 1) = some s` also record that the
Rust loops terminate. -/
theorem claim_C5_ring_range :
    (Square.ring 0 = some {⟨0, 0⟩} ∧ Hex.ring 0 = some {⟨0, 0⟩} ∧
      Triangle.ring 0 = some {⟨0, 0, .Up⟩}) ∧
    ∀ r : ℕ,
      (∃ s, Square.ring (r + 1) = some s ∧ Disjoint (Square.range r) s) ∧
      (∃ s, Hex.ring (r + 1) = some s ∧ Disjoint (Hex.range r) s) ∧
      (∃ t s, Triangle.range r = some t ∧ Triangle.ring (r + 1) = some s ∧
        Disjoint t s) := by
  refine ⟨⟨Square.sq_ring_zero, Hex.hx_ring_zero, Triangle.tri_ring_zero⟩, fun r => ?_⟩
  refine ⟨?_, ?_, ?_⟩
  · obtain ⟨s, hs, hnorm⟩ := Square.sq_ring_succ_spec r
    refine ⟨s, hs, Finset.disjoint_left.mpr fun c hcr hcs => ?_⟩
    have h1 := Square.mem_range_cheb r c hcr
    have h2 := hnorm c hcs
    omega
  · obtain ⟨s, hs, hnorm⟩ := Hex.hx_ring_succ_spec r
    refine ⟨s, hs, Finset.disjoint_left.mpr fun c hcr hcs => ?_⟩
    have h1 := Hex.mem_range_hexNorm r c hcr
    have h2 := hnorm c hcs
    omega
  · obtain ⟨t, ht, hidx⟩ := Triangle.range_spec r
    obtain ⟨s, hs, hsidx⟩ := Triangle.ring_spec (r + 1)
    refine ⟨t, s, ht, hs, Finset.disjoint_left.mpr fun c hcr hcs => ?_⟩
    have h1 := hidx c hcr
    have h2 := hsidx c hcs
    push_cast at h1 h2
    omega

/-! # Inradius versus circumradius (claim C8) -/

theorem sqrt_two_lt_two : Real.sqrt 2 < 2 := by
  nlinarith [Real.sq_sqrt (by norm_num : (0 : ℝ) ≤ 2), Real.sqrt_nonneg 2]

theorem sqrt_three_le_two : Real.sqrt 3 ≤ 2 := by
  nlinarith [Real.sq_sqrt (by norm_num : (0 : ℝ) ≤ 3), Real.sqrt_nonneg 3]

theorem one_lt_sqrt_two : 1 < Real.sqrt 2 := by
  nlinarith [Real.sq_sqrt (by norm_num : (0 : ℝ) ≤ 2), Real.sqrt_nonneg 2]

/-- Counterexample to claim C8 as stated: a square `SizedGrid` built with
inradius `-1` has `circumradius < inradius`, so `inradius ≤ circumradius`
fails for that instance. -/
theorem claim_C8_counterexample :
    ¬(Square.SizedGrid.mk (-1)).inradius ≤
      (Square.SizedGrid.mk (-1)).circumradius := by
  simp only [Square.SizedGrid.circumradius, not_le]
  have h2 : (0 : ℝ) < Real.sqrt 2 := by positivity
  rw [div_lt_iff₀ h2]
  nlinarith [sqrt_two_lt_two]

/-- Claim C8 (amended): for every `SizedGrid` whose inradius is
non-negative, `inradius ≤ circumradius` holds in all three topologies. -/
theorem claim_C8_inradius_le_circumradius (i : ℝ) (hi : 0 ≤ i) :
    (Square.SizedGrid.mk i).inradius ≤ (Square.SizedGrid.mk i).circumradius ∧
    (Hex.SizedGrid.mk i).inradius ≤ (Hex.SizedGrid.mk i).circumradius ∧
    (Triangle.SizedGrid.mk i).inradius ≤
      (Triangle.SizedGrid.mk i).circumradius := by
  refine ⟨?_, ?_, ?_⟩
  · simp only [Square.SizedGrid.circumradius]
    have h2 : (0 : ℝ) < Real.sqrt 2 := by positivity
    rw [le_div_iff₀ h2]
    nlinarith [sqrt_two_lt_two]
  · simp only [Hex.SizedGrid.circumradius]
    have h3 : (0 : ℝ) < Real.sqrt 3 := by positivity
    rw [le_div_iff₀ h3]
    nlinarith [sqrt_three_le_two]
  · simp only [Triangle.SizedGrid.circumradius]
    linarith

/-- Witness for the amended claim C8 at inradius 1. -/
theorem claim_C8_witness :
    (Square.SizedGrid.mk 1).inradius ≤ (Square.SizedGrid.mk 1).circumradius ∧
    (Hex.SizedGrid.mk 1).inradius ≤ (Hex.SizedGrid.mk 1).circumradius ∧
    (Triangle.SizedGrid.mk 1).inradius ≤
      (Triangle.SizedGrid.mk 1).circumradius :=
  claim_C8_inradius_le_circumradius 1 (by norm_num)

/-! # Rectangle queries reject inverted bounds (claim C9) -/

theorem square_screen_rect_isSome (g : Square.SizedGrid) (pmin pmax : Point) :
    (g.screen_rect_to_grid pmin pmax).isSome = true ↔
      pmin.1 ≤ pmax.1 ∧ pmin.2 ≤ pmax.2 := by
  rw [Square.SizedGrid.screen_rect_to_grid]
  split_ifs with h
  · simpa using h
  · simpa using h

theorem hex_screen_rect_isSome (g : Hex.SizedGrid) (pmin pmax : Point) :
    (g.screen_rect_to_grid pmin pmax).isSome = true ↔
      pmin.1 ≤ pmax.1 ∧ pmin.2 ≤ pmax.2 := by
  rw [Hex.SizedGrid.screen_rect_to_grid]
  split_ifs with h
  · simp only [Hex.move_in_direction, Hex.offset_in_direction,
      Option.map_some', Option.some_bind, Option.isSome_some, true_iff]
    exact h
  · simpa using h

theorem triangle_screen_rect_isSome (g : Triangle.SizedGrid)
    (pmin pmax : Point) :
    (g.screen_rect_to_grid pmin pmax).isSome = true ↔
      ((pmin.1 ≤ pmax.1 ∧ pmin.2 ≤ pmax.2) ∧
        (g.screen_to_grid pmin).isSome = true ∧
        (g.screen_to_grid pmax).isSome = true) := by
  rw [Triangle.SizedGrid.screen_rect_to_grid]
  split_ifs with h
  · cases hmin : g.screen_to_grid pmin <;>
      cases hmax : g.screen_to_grid pmax <;>
        simp [h, hmin, hmax]
  · simp [h]

/-- Counterexample to claim C9 as stated: for the triangle grid with
inradius 1 and the valid rectangle whose two corners both equal
`(edge_length, circumradius)`, the bounds check passes but
`screen_rect_to_grid` yields nothing, because `screen_to_grid` offsets that
corner to the origin, all three lane ceilings are 0, and the `from_cubical`
assertion (components must sum to 1 or 2) fires — a panic in the Rust
code rather than a `Some` iterator. -/
theorem claim_C9_counterexample :
    ((Triangle.SizedGrid.mk 1).edge_length ≤
        (Triangle.SizedGrid.mk 1).edge_length ∧
      (Triangle.SizedGrid.mk 1).circumradius ≤
        (Triangle.SizedGrid.mk 1).circumradius) ∧
    (Triangle.SizedGrid.mk 1).screen_rect_to_grid
        ((Triangle.SizedGrid.mk 1).edge_length,
          (Triangle.SizedGrid.mk 1).circumradius)
        ((Triangle.SizedGrid.mk 1).edge_length,
          (Triangle.SizedGrid.mk 1).circumradius) = none := by
  refine ⟨⟨le_refl _, le_refl _⟩, ?_⟩
  have hcorner : (Triangle.SizedGrid.mk 1).screen_to_grid
      ((Triangle.SizedGrid.mk 1).edge_length,
        (Triangle.SizedGrid.mk 1).circumradius) = none := by
    rw [Triangle.SizedGrid.screen_to_grid]
    simp [Triangle.from_cubical_checked]
  rw [Triangle.SizedGrid.screen_rect_to_grid,
    if_neg (not_not_intro ⟨le_refl _, le_refl _⟩), hcorner]
  rfl

/-- Claim C9 (amended): for every topology's `SizedGrid` and all screen
points, `screen_rect_to_grid min max` returns `none` whenever `min` is not
componentwise at most `max`.  For Square and Hex it returns an iterator
exactly when `min` is componentwise at most `max` (in particular the
`expect`ed corner expansions for hex never fail).  For Triangle, when the
bounds check passes the result is an iterator exactly when both corner
conversions satisfy the `from_cubical` assertion (otherwise the Rust code
panics, modelled as `none`). -/
theorem claim_C9_screen_rect_bounds :
    (∀ (g : Square.SizedGrid) (pmin pmax : Point),
      (g.screen_rect_to_grid pmin pmax).isSome = true ↔
        pmin.1 ≤ pmax.1 ∧ pmin.2 ≤ pmax.2) ∧
    (∀ (g : Hex.SizedGrid) (pmin pmax : Point),
      (g.screen_rect_to_grid pmin pmax).isSome = true ↔
        pmin.1 ≤ pmax.1 ∧ pmin.2 ≤ pmax.2) ∧
    (∀ (g : Triangle.SizedGrid) (pmin pmax : Point),
      (g.screen_rect_to_grid pmin pmax).isSome = true ↔
        ((pmin.1 ≤ pmax.1 ∧ pmin.2 ≤ pmax.2) ∧
          (g.screen_to_grid pmin).isSome = true ∧
          (g.screen_to_grid pmax).isSome = true)) :=
  ⟨square_screen_rect_isSome, hex_screen_rect_isSome,
    triangle_screen_rect_isSome⟩
